import Mathlib

/-!
Verification of the surface-landing / collision-resolution core of the
frogjump game scripts (`src/rust/src/math.rs`, `src/rust/src/landing_surface.rs`,
`src/rust/src/player.rs`).

The Rust code computes with `f32` engine vectors; we embed the geometry over
exact reals `ℝ`, with Lean's `x / 0 = 0` convention, which coincides with the
code's observable behavior in the degenerate branches (a zero-length
projection fails `try_normalized` in both worlds).  The Godot engine
primitives the code calls (`Geometry2D::is_point_in_polygon`) are external to
the repository and are modelled as an explicit function parameter `inPoly`.

The file is organised as: all definitions, then general lemmas, then the
claim theorems with their witnesses.
-/

noncomputable section

namespace FrogJump

/-- 2D vector, the embedding of Godot `Vector2` (exact reals instead of `f32`). -/
structure Vec2 where
  x : ℝ
  y : ℝ

instance : DecidableEq Vec2 := fun a b =>
  decidable_of_iff (a.x = b.x ∧ a.y = b.y) (by cases a; cases b; simp)

namespace Vec2

def add (v w : Vec2) : Vec2 := ⟨v.x + w.x, v.y + w.y⟩

def sub (v w : Vec2) : Vec2 := ⟨v.x - w.x, v.y - w.y⟩

def neg (v : Vec2) : Vec2 := ⟨-v.x, -v.y⟩

def scale (r : ℝ) (v : Vec2) : Vec2 := ⟨r * v.x, r * v.y⟩

instance : Add Vec2 := ⟨add⟩

instance : Sub Vec2 := ⟨sub⟩

instance : Neg Vec2 := ⟨neg⟩

instance : Zero Vec2 := ⟨⟨0, 0⟩⟩

def dot (v w : Vec2) : ℝ := v.x * w.x + v.y * w.y

/-- Godot `Vector2::cross`: the 2D cross product `x * b.y - y * b.x`. -/
def cross (v w : Vec2) : ℝ := v.x * w.y - v.y * w.x

/-- Godot `Vector2::orthogonal`: `(y, -x)`. -/
def orthogonal (v : Vec2) : Vec2 := ⟨v.y, -v.x⟩

def length_squared (v : Vec2) : ℝ := v.x * v.x + v.y * v.y

def length (v : Vec2) : ℝ := Real.sqrt v.length_squared

def distance_squared_to (v w : Vec2) : ℝ := (w - v).length_squared

/-- Godot `Vector2::project(to)`: `to * (dot(to) / to.length_squared())`. -/
def project (v onto : Vec2) : Vec2 := scale (dot v onto / length_squared onto) onto

/-- Godot `Vector2::try_normalized`: `None` for the zero vector, else `v / length`. -/
def try_normalized (v : Vec2) : Option Vec2 :=
  if v.length = 0 then none else some ⟨v.x / v.length, v.y / v.length⟩

/-- Godot `Vector2::is_zero_approx`: each component within `CMP_EPSILON = 1e-5`. -/
def is_zero_approx (v : Vec2) : Prop := |v.x| < 1e-5 ∧ |v.y| < 1e-5

instance (n : Vec2) : Decidable (is_zero_approx n) := by
  unfold is_zero_approx
  infer_instance

end Vec2

/-- C `atan2`, the function behind Godot `Vector2::angle_to`. -/
def atan2 (y x : ℝ) : ℝ :=
  if 0 < x then Real.arctan (y / x)
  else if x < 0 then
    (if 0 ≤ y then Real.arctan (y / x) + Real.pi else Real.arctan (y / x) - Real.pi)
  else if 0 < y then Real.pi / 2
  else if y < 0 then -(Real.pi / 2)
  else 0

/-- Godot `Vector2::angle_to(b)`: `atan2(cross(b), dot(b))`. -/
def Vec2.angle_to (v w : Vec2) : ℝ := atan2 (Vec2.cross v w) (Vec2.dot v w)

/-! ## `math.rs` -/

namespace Math

/-- `math::normal(a, b, player_motion)` from `math.rs`:
`(-player_motion).project((b - a).orthogonal()).try_normalized()`. -/
def normal (a b player_motion : Vec2) : Option Vec2 :=
  Vec2.try_normalized (Vec2.project (-player_motion) (Vec2.orthogonal (b - a)))

/-- `math::squared(n) = n * n`. -/
def squared (n : ℝ) : ℝ := n * n

/-- `math::same_normals_approx(n1, n2)`: `absf(n1.angle_to(n2)) < 0.05`. -/
def same_normals_approx (n1 n2 : Vec2) : Prop := |Vec2.angle_to n1 n2| < 0.05

instance (n1 n2 : Vec2) : Decidable (same_normals_approx n1 n2) := by
  unfold same_normals_approx
  infer_instance

end Math

/-! ## `landing_surface.rs` -/

/-- The engine point-in-polygon primitive (`Geometry2D::is_point_in_polygon`),
external to the repository; modelled as a function parameter. -/
abbrev InPolyFn := Vec2 → List Vec2 → Bool

/-- `points[i]` on a `PackedVector2Array`; all call sites index in bounds. -/
def getP (points : List Vec2) (i : ℕ) : Vec2 := points.getD i ⟨0, 0⟩

/-- A candidate landing edge: two endpoints and the outward normal. -/
structure LandingSurface where
  a : Vec2
  b : Vec2
  normal : Vec2

instance : DecidableEq LandingSurface := fun s t =>
  decidable_of_iff (s.a = t.a ∧ s.b = t.b ∧ s.normal = t.normal)
    (by cases s; cases t; simp)

namespace LandingSurface

/-- `LandingSurface::new(a, b, player_motion)`: wraps `math::normal`. -/
def new (a b player_motion : Vec2) : Option LandingSurface :=
  match Math.normal a b player_motion with
  | some normal => some ⟨a, b, normal⟩
  | none => none

/-- `LandingSurface::length_squared`. -/
def length_squared (s : LandingSurface) : ℝ := Vec2.length_squared (s.a - s.b)

/-- `LandingSurface::correct_normal(polygon)`: flip the normal when the test
point just off the edge midpoint lands inside the polygon, unless the opposite
test point is inside as well (the logged ambiguity), in which case the surface
is returned unchanged.  `test_point2 = test_point + (-2) * normal`. -/
def correct_normal (inPoly : InPolyFn) (s : LandingSurface) (polygon : List Vec2) :
    LandingSurface :=
  if inPoly (Vec2.scale (1/2) (s.a + s.b) + s.normal) polygon then
    if inPoly (Vec2.scale (1/2) (s.a + s.b) + s.normal + Vec2.scale (-2) s.normal) polygon
    then s
    else ⟨s.a, s.b, -s.normal⟩
  else s

/-- `LandingSurface::find_surface(polygon, i, i2)`. -/
def find_surface (inPoly : InPolyFn) (polygon : List Vec2) (i i2 : ℕ) :
    Option LandingSurface :=
  match Vec2.try_normalized (Vec2.orthogonal (getP polygon i - getP polygon i2)) with
  | none => none
  | some normal =>
      some (correct_normal inPoly ⟨getP polygon i, getP polygon i2, normal⟩ polygon)

/-- `LandingSurface::hit_by(collision_position, collision_normal)`: the nested
early-return `if`s collapse to a conjunction.  Note the second test of the
source has no absolute value: `(1.0 - dot_product) < TOLERANCE`. -/
def hit_by (s : LandingSurface) (collision_position collision_normal : Vec2) : Prop :=
  |Vec2.dot s.normal collision_position - Vec2.dot s.normal s.a| < 0.2 ∧
  1 - Vec2.dot s.normal collision_normal < 0.2 ∧
  |Vec2.length (s.a - s.b)
    - (Vec2.length (s.a - collision_position) + Vec2.length (s.b - collision_position))| < 0.2

instance (s : LandingSurface) (p n : Vec2) : Decidable (hit_by s p n) := by
  unfold hit_by
  infer_instance

end LandingSurface

/-- Two trivial instantiations of the engine point-in-polygon primitive, used
to evaluate the definitions at concrete inputs. -/
def inPolyTrue : InPolyFn := fun _ _ => true

def inPolyFalse : InPolyFn := fun _ _ => false

/-! ## `player.rs` definitions -/

/-- The `Direction` enum of `player.rs`. -/
inductive Direction where
  | left
  | right
deriving DecidableEq

/-- `WIDTH_MODIFIER = 0.7`. -/
def WIDTH_MODIFIER : ℝ := 0.7

/-- `next_point(points, i)`: successor index, cyclic. -/
def next_point (points : List Vec2) (i : ℕ) : ℕ :=
  if i = points.length - 1 then 0 else i + 1

/-- `prior_point(points, i)`: predecessor index, cyclic. -/
def prior_point (points : List Vec2) (i : ℕ) : ℕ :=
  if i = 0 then points.length - 1 else i - 1

/-- `Player::can_land_on_surface`:
`surface.length_squared() > squared(self.width() * WIDTH_MODIFIER)`.
The player's width is an engine-provided value, taken as a parameter. -/
def can_land_on_surface (width : ℝ) (surface : LandingSurface) : Prop :=
  surface.length_squared > Math.squared (width * WIDTH_MODIFIER)

instance (width : ℝ) (s : LandingSurface) : Decidable (can_land_on_surface width s) := by
  unfold can_land_on_surface
  infer_instance

/-- The engine-provided context of `Player::pick_side_to_land_on`:
player width and global position (read from the engine node), the
point-in-polygon primitive, and the function arguments. -/
structure PickCtx where
  width : ℝ
  global_position : Vec2
  inPoly : InPolyFn
  points : List Vec2
  collision_position : Vec2
  player_motion : Vec2
  collision_normal : Vec2

/-- One iteration of the `for i in 0..points.len()` loop body of
`pick_side_to_land_on`; `none` means the loop continues. -/
def edge_step (ctx : PickCtx) (i : ℕ) : Option LandingSurface :=
  match Math.normal (getP ctx.points i) (getP ctx.points (next_point ctx.points i))
      ctx.player_motion with
  | none => none
  | some n =>
    let surface : LandingSurface :=
      ⟨getP ctx.points i, getP ctx.points (next_point ctx.points i), n⟩
    if surface.hit_by ctx.collision_position ctx.collision_normal then
      some (if can_land_on_surface ctx.width surface then surface
        else
          match Option.filter (fun s => decide (can_land_on_surface ctx.width s))
                  (LandingSurface.find_surface ctx.inPoly ctx.points
                    (next_point ctx.points i)
                    (next_point ctx.points (next_point ctx.points i))),
                Option.filter (fun s => decide (can_land_on_surface ctx.width s))
                  (LandingSurface.find_surface ctx.inPoly ctx.points i
                    (prior_point ctx.points i)) with
          | none, none => surface
          | none, some prior_surface => prior_surface
          | some next_surface, none => next_surface
          | some next_surface, some prior_surface =>
              if Vec2.distance_squared_to ctx.global_position next_surface.a
                  < Vec2.distance_squared_to ctx.global_position prior_surface.a
              then next_surface else prior_surface)
    else none

/-- The loop of `pick_side_to_land_on`, starting at index `i` with `fuel`
iterations remaining. -/
def pick_from (ctx : PickCtx) : ℕ → ℕ → Option LandingSurface
  | _, 0 => none
  | i, fuel + 1 =>
    match edge_step ctx i with
    | some s => some s
    | none => pick_from ctx (i + 1) fuel

/-- `Player::pick_side_to_land_on`. -/
def pick_side_to_land_on (ctx : PickCtx) : Option LandingSurface :=
  pick_from ctx 0 ctx.points.length

/-- `Player::pick_adjacent_side`; the source ends in
`.expect("surface should have a normal!")`, so a `none` result here means the
Rust code panics. -/
def pick_adjacent_side (points : List Vec2) (index : ℕ)
    (next_pt_fn : List Vec2 → ℕ → ℕ) (player_motion : Vec2) : Option LandingSurface :=
  LandingSurface.new (getP points index) (getP points (next_pt_fn points index))
    player_motion

/-- Result of a Rust function that can abort the process: `crashed` models a
reachable `expect`/`assert` failure. -/
inductive PanicOr (α : Type) where
  | crashed
  | ret (a : α)

/-- `Player::pick_side_to_land_on_from_corner`.  The two
`pick_adjacent_side` calls go through `expect`, hence the `PanicOr` result. -/
def pick_side_to_land_on_from_corner (width : ℝ) (inPoly : InPolyFn)
    (points : List Vec2) (index : ℕ) (player_motion collision_normal : Vec2) :
    PanicOr (Option LandingSurface) :=
  if Vec2.is_zero_approx player_motion then PanicOr.ret none
  else
    match pick_adjacent_side points index prior_point player_motion,
          pick_adjacent_side points index next_point player_motion with
    | some lsa, some lsb =>
      let pair :=
        if Vec2.dot lsb.normal collision_normal > Vec2.dot lsa.normal collision_normal
        then (lsb, lsa) else (lsa, lsb)
      if can_land_on_surface width pair.1 then
        PanicOr.ret (some (pair.1.correct_normal inPoly points))
      else if can_land_on_surface width pair.2 then
        PanicOr.ret (some (pair.2.correct_normal inPoly points))
      else PanicOr.ret none
    | _, _ => PanicOr.crashed

/-- The `landing_surface.map_or_else(|| collision.get_normal(), |s| s.normal)`
fall-back of `physics_process`. -/
def final_normal (landing_surface : Option LandingSurface)
    (collision_normal : Vec2) : Vec2 :=
  match landing_surface with
  | some surface => surface.normal
  | none => collision_normal

/-- The `match normal { ... }` orientation update of `physics_process`
(lines 243-264): returns the new `direction`, the new `on_ceiling`, and
whether the "Landed with surprise normal" error branch fired. -/
def update_orientation (n : Vec2) (direction : Direction) (on_ceiling : Bool) :
    Direction × Bool × Bool :=
  if n.x > 0.5 then (Direction.right, on_ceiling, false)
  else if n.x < -0.5 then (Direction.left, on_ceiling, false)
  else if n.y > 0.5 then (direction, true, false)
  else if n.y < -0.5 then (direction, on_ceiling, false)
  else (direction, on_ceiling, true)

/-! ### `smooth_polygon` -/

def insert_sorted (i : ℕ) : List ℕ → List ℕ
  | [] => [i]
  | j :: rest => if i ≤ j then i :: j :: rest else j :: insert_sorted i rest

/-- `stack.sort()`: ascending insertion sort. -/
def sort_stack (stack : List ℕ) : List ℕ := stack.foldr insert_sorted []

/-- The `remove_points` closure of `smooth_polygon`: sort the stack ascending
and remove indices from the largest down. -/
def remove_points (polygon : List Vec2) (stack : List ℕ) : List Vec2 :=
  (sort_stack stack).foldr (fun i p => p.eraseIdx i) polygon

/-- The loop condition of the first `smooth_polygon` pass:
`polygon[i].distance_squared_to(polygon[next i]) < 1.0`. -/
def dup_cond (polygon : List Vec2) (i : ℕ) : Bool :=
  decide (Vec2.distance_squared_to (getP polygon i)
    (getP polygon (next_point polygon i)) < 1)

/-- First pass of `smooth_polygon`: for each `i` satisfying `dup_cond`, push
`next i`. -/
def dup_stack (polygon : List Vec2) : List ℕ :=
  ((List.range polygon.length).filter (dup_cond polygon)).map
    (fun i => next_point polygon i)

/-- The loop condition of the second `smooth_polygon` pass: the edges at `i`
and `next i` both yield surfaces and their normals are approximately equal. -/
def same_normals_cond (inPoly : InPolyFn) (polygon : List Vec2) (i : ℕ) : Bool :=
  match LandingSurface.find_surface inPoly polygon i (next_point polygon i),
        LandingSurface.find_surface inPoly polygon (next_point polygon i)
          (next_point polygon (next_point polygon i)) with
  | some surface_ab, some surface_bc =>
      decide (Math.same_normals_approx surface_ab.normal surface_bc.normal)
  | _, _ => false

/-- Second pass of `smooth_polygon`: for each `i` satisfying
`same_normals_cond`, push `next i` (the shared middle point). -/
def normal_stack (inPoly : InPolyFn) (polygon : List Vec2) : List ℕ :=
  ((List.range polygon.length).filter (same_normals_cond inPoly polygon)).map
    (fun i => next_point polygon i)

/-- `smooth_polygon`: remove near-duplicate neighbours, then collapse adjacent
edges with approximately equal normals. -/
def smooth_polygon (inPoly : InPolyFn) (polygon : List Vec2) : List Vec2 :=
  remove_points (remove_points polygon (dup_stack polygon))
    (normal_stack inPoly (remove_points polygon (dup_stack polygon)))

/-! ### Shimmy state machine -/

/-- The player state touched by the shimmy branch of `physics_process`. -/
structure PlayerState where
  position : Vec2
  target_velocity : Vec2
  shimmy_dest : Option Vec2

/-- `Player::physics_process`, restricted to the state above: when a shimmy
destination is set, glide toward it (snapping when the remaining squared
distance is below 1) and clear it on arrival; gravity integration and the
collision sweep live in the `none` branch, abstracted as `normal_step`
because they call into the engine. -/
def physics_process (normal_step : PlayerState → PlayerState)
    (shimmy_speed delta : ℝ) (st : PlayerState) : PlayerState :=
  match st.shimmy_dest with
  | some shimmy_dest =>
    let new_position :=
      match Vec2.try_normalized (shimmy_dest - st.position) with
      | some direction =>
        let possible_position :=
          st.position + Vec2.scale (shimmy_speed * delta) direction
        if Vec2.distance_squared_to possible_position shimmy_dest < 1
        then shimmy_dest else possible_position
      | none => shimmy_dest
    { position := new_position,
      target_velocity := st.target_velocity,
      shimmy_dest := if new_position = shimmy_dest then none else st.shimmy_dest }
  | none => normal_step st

/-! ### Concrete inputs used by witnesses and counterexamples -/

/-- An axis-aligned square tile polygon with side 10. -/
def squarePolygon : List Vec2 := [⟨0, 0⟩, ⟨10, 0⟩, ⟨10, 10⟩, ⟨0, 10⟩]

/-- A polygon with two points at distance 0.9: the first `smooth_polygon`
pass removes index 2, which makes indices 1 and 3 adjacent at distance 0.9. -/
def notchedPolygon : List Vec2 :=
  [⟨-5, 0⟩, ⟨0, 0⟩, ⟨0.9, 0⟩, ⟨0, 0.9⟩, ⟨5, 0.9⟩, ⟨5, 5.9⟩, ⟨-5, 5.9⟩]

/-- The staircase hexagon that `notchedPolygon` smooths to; its consecutive
edges are pairwise perpendicular but points 1 and 2 are only 0.9 apart. -/
def stairPolygon : List Vec2 :=
  [⟨-5, 0⟩, ⟨0, 0⟩, ⟨0, 0.9⟩, ⟨5, 0.9⟩, ⟨5, 5.9⟩, ⟨-5, 5.9⟩]

/-- Polygon whose edge 0 is a short floor segment (length 5) flanked by long
continuations, exercising the too-short branch of `pick_side_to_land_on`. -/
def shortEdgePolygon : List Vec2 :=
  [⟨0, 0⟩, ⟨5, 0⟩, ⟨15, 0⟩, ⟨15, 20⟩, ⟨-10, 20⟩, ⟨-10, 0⟩]

/-- Context for exercising `pick_side_to_land_on` with a far-away collision
point that no edge of the square is hit by. -/
def c10ctx : PickCtx :=
  ⟨3, ⟨0, 0⟩, inPolyFalse, squarePolygon, ⟨100, 100⟩, ⟨0, 10⟩, ⟨0, -1⟩⟩

/-- Context for exercising the too-short branch of `pick_side_to_land_on`:
width 10 against the length-5 edge 0 of `shortEdgePolygon`, collision at that
edge's midpoint, falling straight down. -/
def c4ctx : PickCtx :=
  ⟨10, ⟨5, -3⟩, inPolyFalse, shortEdgePolygon, ⟨2.5, 0⟩, ⟨0, 10⟩, ⟨0, -1⟩⟩

/-! ## General lemmas -/

namespace Vec2

theorem ext_iff (v w : Vec2) : v = w ↔ v.x = w.x ∧ v.y = w.y := by
  cases v
  cases w
  simp

@[simp] theorem add_x (v w : Vec2) : (v + w).x = v.x + w.x := rfl

@[simp] theorem add_y (v w : Vec2) : (v + w).y = v.y + w.y := rfl

@[simp] theorem sub_x (v w : Vec2) : (v - w).x = v.x - w.x := rfl

@[simp] theorem sub_y (v w : Vec2) : (v - w).y = v.y - w.y := rfl

@[simp] theorem neg_x (v : Vec2) : (-v).x = -v.x := rfl

@[simp] theorem neg_y (v : Vec2) : (-v).y = -v.y := rfl

@[simp] theorem zero_x : (0 : Vec2).x = 0 := rfl

@[simp] theorem zero_y : (0 : Vec2).y = 0 := rfl

@[simp] theorem scale_x (r : ℝ) (v : Vec2) : (scale r v).x = r * v.x := rfl

@[simp] theorem scale_y (r : ℝ) (v : Vec2) : (scale r v).y = r * v.y := rfl

@[simp] theorem orthogonal_x (v : Vec2) : (orthogonal v).x = v.y := rfl

@[simp] theorem orthogonal_y (v : Vec2) : (orthogonal v).y = -v.x := rfl

theorem eq_zero_iff (v : Vec2) : v = 0 ↔ v.x = 0 ∧ v.y = 0 := by
  rw [ext_iff]
  simp

theorem sub_eq_zero_iff (v w : Vec2) : v - w = 0 ↔ v = w := by
  rw [eq_zero_iff, ext_iff]
  simp [sub_eq_zero]

theorem length_squared_nonneg (v : Vec2) : 0 ≤ v.length_squared := by
  have hx := mul_self_nonneg v.x
  have hy := mul_self_nonneg v.y
  unfold length_squared
  linarith

theorem length_squared_eq_zero_iff (v : Vec2) : v.length_squared = 0 ↔ v = 0 := by
  rw [eq_zero_iff]
  unfold length_squared
  constructor
  · intro h
    have hx := mul_self_nonneg v.x
    have hy := mul_self_nonneg v.y
    exact ⟨mul_self_eq_zero.mp (by linarith), mul_self_eq_zero.mp (by linarith)⟩
  · rintro ⟨h1, h2⟩
    rw [h1, h2]
    ring

theorem length_squared_pos_of_ne_zero {v : Vec2} (h : v ≠ 0) : 0 < v.length_squared := by
  rcases lt_or_eq_of_le (length_squared_nonneg v) with hlt | heq
  · exact hlt
  · exact absurd ((length_squared_eq_zero_iff v).mp heq.symm) h

theorem length_eq_zero_iff (v : Vec2) : v.length = 0 ↔ v = 0 := by
  unfold length
  rw [Real.sqrt_eq_zero (length_squared_nonneg v)]
  exact length_squared_eq_zero_iff v

theorem length_pos_of_ne_zero {v : Vec2} (h : v ≠ 0) : 0 < v.length := by
  have h0 : v.length ≠ 0 := fun hc => h ((length_eq_zero_iff v).mp hc)
  exact lt_of_le_of_ne (Real.sqrt_nonneg _) (Ne.symm h0)

theorem sq_length (v : Vec2) : v.length * v.length = v.length_squared := by
  unfold length
  exact Real.mul_self_sqrt (length_squared_nonneg v)

theorem try_normalized_eq_none_iff (v : Vec2) : v.try_normalized = none ↔ v = 0 := by
  unfold try_normalized
  constructor
  · intro h
    by_contra hv
    rw [if_neg (fun hc => hv ((length_eq_zero_iff v).mp hc))] at h
    exact Option.some_ne_none _ h
  · intro h
    rw [if_pos ((length_eq_zero_iff v).mpr h)]

theorem try_normalized_of_ne_zero {v : Vec2} (h : v ≠ 0) :
    v.try_normalized = some ⟨v.x / v.length, v.y / v.length⟩ := by
  unfold try_normalized
  rw [if_neg (fun hc => h ((length_eq_zero_iff v).mp hc))]

/-- Helper for concrete evaluation: if `x * x + y * y = l * l` with `0 ≤ l` then
`⟨x, y⟩.length = l`. -/
theorem length_eval {x y l : ℝ} (hl : 0 ≤ l) (h : x * x + y * y = l * l) :
    (Vec2.mk x y).length = l := by
  unfold length length_squared
  simp only
  rw [h]
  exact Real.sqrt_mul_self hl

theorem try_normalized_eval {x y l : ℝ} (hl : 0 < l) (h : x * x + y * y = l * l) :
    (Vec2.mk x y).try_normalized = some ⟨x / l, y / l⟩ := by
  have hlen : (Vec2.mk x y).length = l := length_eval (le_of_lt hl) h
  unfold try_normalized
  rw [hlen, if_neg (ne_of_gt hl)]

end Vec2

/-- The projection computed inside `math::normal`, rewritten through the cross
product: the coefficient `(-m) · orthogonal d / |orthogonal d|²` equals
`cross d m / |d|²`. -/
theorem normal_eq_scaled (a b m : Vec2) :
    Math.normal a b m = Vec2.try_normalized
      (Vec2.scale (Vec2.cross (b - a) m / Vec2.length_squared (b - a))
        (Vec2.orthogonal (b - a))) := by
  have h1 : Vec2.dot (-m) (Vec2.orthogonal (b - a)) = Vec2.cross (b - a) m := by
    simp only [Vec2.dot, Vec2.cross, Vec2.orthogonal_x, Vec2.orthogonal_y,
      Vec2.neg_x, Vec2.neg_y]
    ring
  have h2 : Vec2.length_squared (Vec2.orthogonal (b - a))
      = Vec2.length_squared (b - a) := by
    simp only [Vec2.length_squared, Vec2.orthogonal_x, Vec2.orthogonal_y]
    ring
  unfold Math.normal Vec2.project
  rw [h1, h2]

theorem scaled_ortho_eq_zero_iff (d m : Vec2) :
    Vec2.scale (Vec2.cross d m / Vec2.length_squared d) (Vec2.orthogonal d) = 0
      ↔ d = 0 ∨ Vec2.cross d m = 0 := by
  constructor
  · intro h
    by_cases hd : d = 0
    · exact Or.inl hd
    · right
      have hL : 0 < Vec2.length_squared d := Vec2.length_squared_pos_of_ne_zero hd
      rw [Vec2.eq_zero_iff] at h
      simp only [Vec2.scale_x, Vec2.scale_y, Vec2.orthogonal_x, Vec2.orthogonal_y] at h
      by_contra hc
      have hcne : Vec2.cross d m / Vec2.length_squared d ≠ 0 :=
        div_ne_zero hc (ne_of_gt hL)
      apply hd
      rw [Vec2.eq_zero_iff]
      rcases h with ⟨hx, hy⟩
      rcases mul_eq_zero.mp hx with h1 | h1
      · exact absurd h1 hcne
      · rcases mul_eq_zero.mp hy with h2 | h2
        · exact absurd h2 hcne
        · exact ⟨by linarith [neg_eq_zero.mp h2], h1⟩
  · intro h
    rw [Vec2.eq_zero_iff]
    simp only [Vec2.scale_x, Vec2.scale_y, Vec2.orthogonal_x, Vec2.orthogonal_y]
    rcases h with h | h
    · have hx : d.x = 0 := by rw [h]; rfl
      have hy : d.y = 0 := by rw [h]; rfl
      rw [hx, hy]
      norm_num
    · rw [h]
      norm_num

theorem normal_core (d m : Vec2) (hd : d ≠ 0) (hc : Vec2.cross d m ≠ 0) :
    ∃ n, Vec2.try_normalized
        (Vec2.scale (Vec2.cross d m / Vec2.length_squared d) (Vec2.orthogonal d))
        = some n ∧ n.length = 1 ∧ Vec2.dot n d = 0 ∧ Vec2.dot n m < 0 := by
  have hL : 0 < Vec2.length_squared d := Vec2.length_squared_pos_of_ne_zero hd
  set c : ℝ := Vec2.cross d m / Vec2.length_squared d with hcdef
  have hcne : c ≠ 0 := div_ne_zero hc (ne_of_gt hL)
  set w : Vec2 := Vec2.scale c (Vec2.orthogonal d) with hwdef
  have hwx : w.x = c * d.y := rfl
  have hwy : w.y = c * -d.x := rfl
  have hwne : w ≠ 0 := by
    intro h0
    rw [Vec2.eq_zero_iff, hwx, hwy] at h0
    rcases h0 with ⟨hx, hy⟩
    rcases mul_eq_zero.mp hx with h1 | h1
    · exact absurd h1 hcne
    · rcases mul_eq_zero.mp hy with h2 | h2
      · exact absurd h2 hcne
      · apply hd
        rw [Vec2.eq_zero_iff]
        exact ⟨by linarith [neg_eq_zero.mp h2], h1⟩
  have hl : 0 < w.length := Vec2.length_pos_of_ne_zero hwne
  have hlne : w.length ≠ 0 := ne_of_gt hl
  have hsq : w.x * w.x + w.y * w.y = w.length * w.length := by
    rw [Vec2.sq_length]
    rfl
  refine ⟨⟨w.x / w.length, w.y / w.length⟩, ?_, ?_, ?_, ?_⟩
  · exact Vec2.try_normalized_of_ne_zero hwne
  · have hunit : (w.x / w.length) * (w.x / w.length)
        + (w.y / w.length) * (w.y / w.length) = 1 * 1 := by
      field_simp
      linear_combination hsq
    exact Vec2.length_eval (by norm_num) hunit
  · simp only [Vec2.dot]
    rw [hwx, hwy]
    field_simp
    ring
  · have hdm : Vec2.dot ⟨w.x / w.length, w.y / w.length⟩ m
        = -(Vec2.cross d m * Vec2.cross d m)
          / (Vec2.length_squared d * w.length) := by
      simp only [Vec2.dot]
      rw [hwx, hwy, hcdef]
      simp only [Vec2.cross]
      field_simp
      ring
    rw [hdm]
    apply div_neg_of_neg_of_pos
    · have : 0 < Vec2.cross d m * Vec2.cross d m := mul_self_pos.mpr hc
      linarith
    · exact mul_pos hL hl

/-- Perpendicular vectors are never approximated as same normals: the angle is
exactly `±π/2`, far above the `0.05` tolerance. -/
theorem not_same_normals_of_perp (n1 n2 : Vec2) (hd : Vec2.dot n1 n2 = 0)
    (hc : Vec2.cross n1 n2 ≠ 0) : ¬ Math.same_normals_approx n1 n2 := by
  unfold Math.same_normals_approx Vec2.angle_to atan2
  rw [hd]
  have hpi : (0.05 : ℝ) < Real.pi / 2 := by
    have := Real.pi_gt_three
    linarith
  have hhalf : (0 : ℝ) < Real.pi / 2 := by
    have := Real.pi_pos
    linarith
  rcases lt_or_gt_of_ne hc with h | h
  · rw [if_neg (lt_irrefl 0), if_neg (lt_irrefl 0),
      if_neg (not_lt.mpr (le_of_lt h)), if_pos h]
    rw [abs_neg, abs_of_pos hhalf]
    linarith
  · rw [if_neg (lt_irrefl 0), if_neg (lt_irrefl 0), if_pos h]
    rw [abs_of_pos hhalf]
    linarith

/-- With the always-false point-in-polygon test, `correct_normal` is the
identity. -/
theorem correct_normal_inPolyFalse (s : LandingSurface) (polygon : List Vec2) :
    LandingSurface.correct_normal inPolyFalse s polygon = s := by
  unfold LandingSurface.correct_normal
  rw [if_neg]
  rw [Bool.not_eq_true]
  rfl

/-- Numeric evaluation of `math::normal`: supply the scaled projection vector
and its length. -/
theorem normal_num_eval (a b m : Vec2) {wx wy l : ℝ}
    (hw : Vec2.scale (Vec2.cross (b - a) m / Vec2.length_squared (b - a))
      (Vec2.orthogonal (b - a)) = ⟨wx, wy⟩)
    (hl : 0 < l) (h : wx * wx + wy * wy = l * l) :
    Math.normal a b m = some ⟨wx / l, wy / l⟩ := by
  rw [normal_eq_scaled, hw, Vec2.try_normalized_eval hl h]

/-- Numeric evaluation of a degenerate `math::normal`: the cross product of
the edge with the motion vanishes. -/
theorem normal_none_eval (a b m : Vec2) (h : Vec2.cross (b - a) m = 0) :
    Math.normal a b m = none := by
  rw [normal_eq_scaled, Vec2.try_normalized_eq_none_iff, scaled_ortho_eq_zero_iff]
  exact Or.inr h

/-! ## Claim C1 -/

/-- Claim C1: for every segment `(a, b)` with `a ≠ b` and motion `m` with
`(b - a) × m ≠ 0`, `normal a b m` returns `some` unit vector `n` orthogonal to
`b - a` with `n · m < 0`; and it returns `none` exactly when the segment is
degenerate (`a = b`) or the motion has zero component along the orthogonal
axis (`(b - a) × m = 0`). -/
theorem normal_opposes_motion (a b m : Vec2) :
    (a ≠ b → Vec2.cross (b - a) m ≠ 0 →
      ∃ n, Math.normal a b m = some n ∧ n.length = 1 ∧
        Vec2.dot n (b - a) = 0 ∧ Vec2.dot n m < 0) ∧
    (Math.normal a b m = none ↔ (a = b ∨ Vec2.cross (b - a) m = 0)) := by
  constructor
  · intro hab hcross
    have hd : b - a ≠ 0 := by
      rw [Ne, Vec2.sub_eq_zero_iff]
      exact fun h => hab h.symm
    rw [normal_eq_scaled]
    exact normal_core (b - a) m hd hcross
  · rw [normal_eq_scaled, Vec2.try_normalized_eq_none_iff, scaled_ortho_eq_zero_iff]
    constructor
    · rintro (h | h)
      · exact Or.inl ((Vec2.sub_eq_zero_iff b a).mp h).symm
      · exact Or.inr h
    · rintro (h | h)
      · exact Or.inl ((Vec2.sub_eq_zero_iff b a).mpr h.symm)
      · exact Or.inr h

/-- Witness for C1 at `a = (0,0)`, `b = (1,0)`, `m = (0,1)`. -/
theorem normal_opposes_motion_witness :
    (Vec2.mk 0 0 ≠ Vec2.mk 1 0) ∧ Vec2.cross (Vec2.mk 1 0 - Vec2.mk 0 0) (Vec2.mk 0 1) ≠ 0 ∧
    ∃ n, Math.normal ⟨0, 0⟩ ⟨1, 0⟩ ⟨0, 1⟩ = some n ∧ n.length = 1 ∧
      Vec2.dot n (Vec2.mk 1 0 - Vec2.mk 0 0) = 0 ∧ Vec2.dot n ⟨0, 1⟩ < 0 := by
  have h1 : Vec2.mk 0 0 ≠ Vec2.mk 1 0 := by
    rw [Ne, Vec2.ext_iff]
    norm_num
  have h2 : Vec2.cross (Vec2.mk 1 0 - Vec2.mk 0 0) (Vec2.mk 0 1) ≠ 0 := by
    simp only [Vec2.cross, Vec2.sub_x, Vec2.sub_y]
    norm_num
  exact ⟨h1, h2, (normal_opposes_motion ⟨0, 0⟩ ⟨1, 0⟩ ⟨0, 1⟩).1 h1 h2⟩

/-! ## Claims C5 and C9 -/

/-- Claim C5: if both the test point just outside the edge (midpoint + normal)
and the opposite test point (midpoint - normal) lie inside the polygon,
`correct_normal` returns the original surface completely unchanged. -/
theorem correct_normal_ambiguous (inPoly : InPolyFn) (s : LandingSurface)
    (polygon : List Vec2)
    (h1 : inPoly (Vec2.scale (1/2) (s.a + s.b) + s.normal) polygon = true)
    (h2 : inPoly (Vec2.scale (1/2) (s.a + s.b) - s.normal) polygon = true) :
    s.correct_normal inPoly polygon = s := by
  have hpt : Vec2.scale (1/2) (s.a + s.b) + s.normal + Vec2.scale (-2) s.normal
      = Vec2.scale (1/2) (s.a + s.b) - s.normal := by
    rw [Vec2.ext_iff]
    constructor <;> simp <;> ring
  unfold LandingSurface.correct_normal
  rw [hpt, if_pos h1, if_pos h2]

/-- Witness for C5: an always-inside polygon test leaves the surface unchanged. -/
theorem correct_normal_ambiguous_witness :
    inPolyTrue (Vec2.scale (1/2) (Vec2.mk 0 0 + Vec2.mk 10 0) + Vec2.mk 0 (-1)) [] = true ∧
    inPolyTrue (Vec2.scale (1/2) (Vec2.mk 0 0 + Vec2.mk 10 0) - Vec2.mk 0 (-1)) [] = true ∧
    LandingSurface.correct_normal inPolyTrue ⟨⟨0, 0⟩, ⟨10, 0⟩, ⟨0, -1⟩⟩ []
      = ⟨⟨0, 0⟩, ⟨10, 0⟩, ⟨0, -1⟩⟩ :=
  ⟨rfl, rfl, correct_normal_ambiguous inPolyTrue ⟨⟨0, 0⟩, ⟨10, 0⟩, ⟨0, -1⟩⟩ [] rfl rfl⟩

/-- Claim C9: `correct_normal` is idempotent on an already-outward-pointing
surface: if the midpoint-plus-normal test point lies outside the polygon,
applying `correct_normal` twice yields the same surface as applying it once. -/
theorem correct_normal_idempotent_outward (inPoly : InPolyFn) (s : LandingSurface)
    (polygon : List Vec2)
    (h : inPoly (Vec2.scale (1/2) (s.a + s.b) + s.normal) polygon = false) :
    LandingSurface.correct_normal inPoly
        (LandingSurface.correct_normal inPoly s polygon) polygon
      = LandingSurface.correct_normal inPoly s polygon := by
  have h1 : LandingSurface.correct_normal inPoly s polygon = s := by
    unfold LandingSurface.correct_normal
    rw [if_neg]
    rw [Bool.not_eq_true]
    exact h
  rw [h1, h1]

/-- Witness for C9: an always-outside polygon test gives idempotence. -/
theorem correct_normal_idempotent_outward_witness :
    inPolyFalse (Vec2.scale (1/2) (Vec2.mk 0 0 + Vec2.mk 10 0) + Vec2.mk 0 (-1)) [] = false ∧
    LandingSurface.correct_normal inPolyFalse
        (LandingSurface.correct_normal inPolyFalse ⟨⟨0, 0⟩, ⟨10, 0⟩, ⟨0, -1⟩⟩ []) []
      = LandingSurface.correct_normal inPolyFalse ⟨⟨0, 0⟩, ⟨10, 0⟩, ⟨0, -1⟩⟩ [] :=
  ⟨rfl, correct_normal_idempotent_outward inPolyFalse ⟨⟨0, 0⟩, ⟨10, 0⟩, ⟨0, -1⟩⟩ [] rfl⟩

/-- Concrete evaluation of `math::normal` to a clean result vector: supply the
normalization length `l` and the expected components `nx, ny`. -/
theorem normal_eval_concrete (a b m : Vec2) (l nx ny : ℝ) (hl : 0 < l)
    (hx : (Vec2.cross (b - a) m / Vec2.length_squared (b - a)) * (b - a).y = nx * l)
    (hy : (Vec2.cross (b - a) m / Vec2.length_squared (b - a)) * -((b - a).x) = ny * l)
    (hlen : (nx * l) * (nx * l) + (ny * l) * (ny * l) = l * l) :
    Math.normal a b m = some ⟨nx, ny⟩ := by
  have hw : Vec2.scale (Vec2.cross (b - a) m / Vec2.length_squared (b - a))
      (Vec2.orthogonal (b - a)) = ⟨nx * l, ny * l⟩ := by
    rw [Vec2.ext_iff]
    exact ⟨hx, hy⟩
  rw [normal_num_eval a b m hw hl hlen]
  congr 1
  rw [Vec2.ext_iff]
  constructor
  · exact mul_div_assoc nx l l ▸ by rw [div_self (ne_of_gt hl), mul_one]
  · exact mul_div_assoc ny l l ▸ by rw [div_self (ne_of_gt hl), mul_one]

/-- Concrete evaluation of `Vec2.length` by exhibiting the square root. -/
theorem length_eval_clean (v : Vec2) (l : ℝ) (hl : 0 ≤ l)
    (h : v.x * v.x + v.y * v.y = l * l) : v.length = l := by
  unfold Vec2.length Vec2.length_squared
  rw [h]
  exact Real.sqrt_mul_self hl

/-- Concrete evaluation of `try_normalized` to a clean result vector. -/
theorem try_normalized_eval_clean (v : Vec2) (l nx ny : ℝ) (hl : 0 < l)
    (hx : v.x = nx * l) (hy : v.y = ny * l)
    (hlen : (nx * l) * (nx * l) + (ny * l) * (ny * l) = l * l) :
    v.try_normalized = some ⟨nx, ny⟩ := by
  have hv : v = ⟨nx * l, ny * l⟩ := by
    rw [Vec2.ext_iff]
    exact ⟨hx, hy⟩
  rw [hv, Vec2.try_normalized_eval hl hlen]
  congr 1
  rw [Vec2.ext_iff]
  constructor
  · exact mul_div_assoc nx l l ▸ by rw [div_self (ne_of_gt hl), mul_one]
  · exact mul_div_assoc ny l l ▸ by rw [div_self (ne_of_gt hl), mul_one]

/-- Evaluation of `find_surface` once the endpoints and the normalized
orthogonal are known. -/
theorem find_surface_eval (inPoly : InPolyFn) (polygon : List Vec2) (i i2 : ℕ)
    (a b n : Vec2) (hia : getP polygon i = a) (hib : getP polygon i2 = b)
    (htn : Vec2.try_normalized (Vec2.orthogonal (a - b)) = some n) :
    LandingSurface.find_surface inPoly polygon i i2
      = some (LandingSurface.correct_normal inPoly ⟨a, b, n⟩ polygon) := by
  unfold LandingSurface.find_surface
  rw [hia, hib, htn]

theorem option_filter_some_of (p : LandingSurface → Bool) (s : LandingSurface)
    (h : p s = true) : Option.filter p (some s) = some s := by
  simp [Option.filter, h]

theorem option_filter_none_of (p : LandingSurface → Bool) (s : LandingSurface)
    (h : p s = false) : Option.filter p (some s) = none := by
  simp [Option.filter, h]

/-- If an edge's normal fails or its surface is not hit, the
`pick_side_to_land_on` loop body continues. -/
theorem edge_step_eq_none (ctx : PickCtx) (i : ℕ)
    (h : ∀ n, Math.normal (getP ctx.points i) (getP ctx.points (next_point ctx.points i))
        ctx.player_motion = some n →
      ¬ LandingSurface.hit_by
        ⟨getP ctx.points i, getP ctx.points (next_point ctx.points i), n⟩
        ctx.collision_position ctx.collision_normal) :
    edge_step ctx i = none := by
  unfold edge_step
  cases hn : Math.normal (getP ctx.points i) (getP ctx.points (next_point ctx.points i))
      ctx.player_motion with
  | none => rfl
  | some n =>
    dsimp only
    rw [if_neg (h n hn)]

/-- A loop in which every body iteration continues returns `none`. -/
theorem pick_from_all_none (ctx : PickCtx)
    (h : ∀ j, j < ctx.points.length → edge_step ctx j = none) :
    ∀ fuel i, i + fuel ≤ ctx.points.length → pick_from ctx i fuel = none := by
  intro fuel
  induction fuel with
  | zero =>
    intro i _
    rfl
  | succ m ih =>
    intro i hle
    show (match edge_step ctx i with
      | some s => some s
      | none => pick_from ctx (i + 1) m) = none
    rw [h i (by omega)]
    exact ih (i + 1) (by omega)

/-- The loop returns the first iteration that produces a surface. -/
theorem pick_from_reaches (ctx : PickCtx) (tgt : ℕ) (s : LandingSurface)
    (hs : edge_step ctx tgt = some s) :
    ∀ fuel i, i ≤ tgt → tgt < i + fuel →
      (∀ j, j < tgt → edge_step ctx j = none) →
      pick_from ctx i fuel = some s := by
  intro fuel
  induction fuel with
  | zero =>
    intro i h1 h2 _
    omega
  | succ m ih =>
    intro i h1 h2 hnone
    show (match edge_step ctx i with
      | some s => some s
      | none => pick_from ctx (i + 1) m) = some s
    by_cases hi : i = tgt
    · subst hi
      rw [hs]
    · have hlt : i < tgt := lt_of_le_of_ne h1 hi
      rw [hnone i hlt]
      exact ih (i + 1) (by omega) (by omega) hnone

theorem remove_points_nil (polygon : List Vec2) : remove_points polygon [] = polygon := rfl

theorem eraseIdx_length_le (l : List Vec2) (i : ℕ) : (l.eraseIdx i).length ≤ l.length := by
  induction l generalizing i with
  | nil => simp [List.eraseIdx]
  | cons a t ih =>
    cases i with
    | zero => simp [List.eraseIdx]
    | succ j =>
      simp only [List.eraseIdx, List.length_cons]
      exact Nat.succ_le_succ (ih j)

theorem remove_points_length_le (polygon : List Vec2) (stack : List ℕ) :
    (remove_points polygon stack).length ≤ polygon.length := by
  unfold remove_points
  generalize sort_stack stack = s
  induction s with
  | nil => exact le_refl _
  | cons a t ih =>
    calc (List.foldr (fun i p => p.eraseIdx i) polygon (a :: t)).length
        ≤ (List.foldr (fun i p => p.eraseIdx i) polygon t).length :=
          eraseIdx_length_le _ a
      _ ≤ polygon.length := ih

/-- Evaluation of the first-pass condition to `false` at concrete points. -/
theorem dup_cond_false (polygon : List Vec2) (i : ℕ) (p q : Vec2)
    (hp : getP polygon i = p) (hq : getP polygon (next_point polygon i) = q)
    (h : 1 ≤ (q.x - p.x) * (q.x - p.x) + (q.y - p.y) * (q.y - p.y)) :
    dup_cond polygon i = false := by
  unfold dup_cond
  rw [hp, hq, decide_eq_false_iff_not]
  unfold Vec2.distance_squared_to
  simp only [Vec2.length_squared, Vec2.sub_x, Vec2.sub_y]
  intro hc
  linarith

/-- Evaluation of the first-pass condition to `true` at concrete points. -/
theorem dup_cond_true (polygon : List Vec2) (i : ℕ) (p q : Vec2)
    (hp : getP polygon i = p) (hq : getP polygon (next_point polygon i) = q)
    (h : (q.x - p.x) * (q.x - p.x) + (q.y - p.y) * (q.y - p.y) < 1) :
    dup_cond polygon i = true := by
  unfold dup_cond
  rw [hp, hq, decide_eq_true_eq]
  unfold Vec2.distance_squared_to
  simp only [Vec2.length_squared, Vec2.sub_x, Vec2.sub_y]
  linarith

/-- Evaluation of the second-pass condition to `false` from the two surfaces
and the failure of the angle test. -/
theorem same_normals_cond_false (inPoly : InPolyFn) (polygon : List Vec2) (i : ℕ)
    (sab sbc : LandingSurface)
    (ha : LandingSurface.find_surface inPoly polygon i (next_point polygon i) = some sab)
    (hb : LandingSurface.find_surface inPoly polygon (next_point polygon i)
      (next_point polygon (next_point polygon i)) = some sbc)
    (h : ¬ Math.same_normals_approx sab.normal sbc.normal) :
    same_normals_cond inPoly polygon i = false := by
  unfold same_normals_cond
  rw [ha, hb]
  exact decide_eq_false_iff_not.mpr h

/-- The shimmy-destination field is cleared exactly on arrival. -/
theorem shimmy_clear_iff (np d : Vec2) :
    ((if np = d then none else some d) = none) ↔ np = d := by
  by_cases h : np = d <;> simp [h]

/-! ## Claim C7 -/

/-- Claim C7: in a physics step with `shimmy_dest = some d`, gravity and
collision handling are skipped (the result does not depend on the abstracted
normal step and the velocity is untouched); the position advances by
`shimmy_speed * delta` along the unit vector toward `d`, snapping exactly to
`d` when the moved position's squared distance to `d` is below 1; and
`shimmy_dest` is cleared exactly when the new position equals `d`. -/
theorem shimmy_glide (normal_step : PlayerState → PlayerState)
    (shimmy_speed delta : ℝ) (st : PlayerState) (d : Vec2)
    (hdest : st.shimmy_dest = some d) (hne : st.position ≠ d) :
    (∀ other_step : PlayerState → PlayerState,
      physics_process other_step shimmy_speed delta st
        = physics_process normal_step shimmy_speed delta st) ∧
    (physics_process normal_step shimmy_speed delta st).target_velocity
      = st.target_velocity ∧
    (physics_process normal_step shimmy_speed delta st).position
      = (if Vec2.distance_squared_to
            (st.position + Vec2.scale (shimmy_speed * delta)
              (Vec2.scale (1 / Vec2.length (d - st.position)) (d - st.position))) d < 1
        then d
        else st.position + Vec2.scale (shimmy_speed * delta)
          (Vec2.scale (1 / Vec2.length (d - st.position)) (d - st.position))) ∧
    ((physics_process normal_step shimmy_speed delta st).shimmy_dest = none
      ↔ (physics_process normal_step shimmy_speed delta st).position = d) := by
  have hvne : d - st.position ≠ 0 := by
    rw [Ne, Vec2.sub_eq_zero_iff]
    exact fun h => hne h.symm
  have htn : Vec2.try_normalized (d - st.position)
      = some (Vec2.scale (1 / Vec2.length (d - st.position)) (d - st.position)) := by
    rw [Vec2.try_normalized_of_ne_zero hvne]
    congr 1
    rw [Vec2.ext_iff]
    constructor <;> simp <;> ring
  have hres : ∀ ns : PlayerState → PlayerState,
      physics_process ns shimmy_speed delta st =
      { position := if Vec2.distance_squared_to
            (st.position + Vec2.scale (shimmy_speed * delta)
              (Vec2.scale (1 / Vec2.length (d - st.position)) (d - st.position))) d < 1
          then d
          else st.position + Vec2.scale (shimmy_speed * delta)
            (Vec2.scale (1 / Vec2.length (d - st.position)) (d - st.position)),
        target_velocity := st.target_velocity,
        shimmy_dest := if (if Vec2.distance_squared_to
            (st.position + Vec2.scale (shimmy_speed * delta)
              (Vec2.scale (1 / Vec2.length (d - st.position)) (d - st.position))) d < 1
          then d
          else st.position + Vec2.scale (shimmy_speed * delta)
            (Vec2.scale (1 / Vec2.length (d - st.position)) (d - st.position))) = d
          then none else some d } := by
    intro ns
    unfold physics_process
    rw [hdest]
    dsimp only
    rw [htn]
  refine ⟨fun other => by rw [hres other, hres normal_step], ?_, ?_, ?_⟩
  · rw [hres normal_step]
  · rw [hres normal_step]
  · rw [hres normal_step]
    exact shimmy_clear_iff _ d

/-- Witness for C7: gliding from the origin toward `(10, 0)` at speed 5 for
one time step leaves the velocity untouched. -/
theorem shimmy_glide_witness :
    (PlayerState.mk ⟨0, 0⟩ ⟨1, 2⟩ (some ⟨10, 0⟩)).shimmy_dest = some ⟨10, 0⟩ ∧
    (PlayerState.mk ⟨0, 0⟩ ⟨1, 2⟩ (some ⟨10, 0⟩)).position ≠ ⟨10, 0⟩ ∧
    (physics_process id 5 1 (PlayerState.mk ⟨0, 0⟩ ⟨1, 2⟩ (some ⟨10, 0⟩))).target_velocity
      = ⟨1, 2⟩ := by
  have hne : (PlayerState.mk ⟨0, 0⟩ ⟨1, 2⟩ (some ⟨10, 0⟩)).position ≠ ⟨10, 0⟩ := by
    intro h
    have : (0 : ℝ) = 10 := congrArg Vec2.x h
    norm_num at this
  exact ⟨rfl, hne,
    (shimmy_glide id 5 1 (PlayerState.mk ⟨0, 0⟩ ⟨1, 2⟩ (some ⟨10, 0⟩)) ⟨10, 0⟩ rfl hne).2.1⟩

/-! ## Claim C6 -/

/-- Counterexample to C6: the exactly-unit normal `(0.6, 0.8)` has dominant
`y` component with `y > 0`, so the claim predicts the on-ceiling branch, but
the code's `match` tests `x > 0.5` first and faces the player `Right`,
leaving `on_ceiling` false. -/
theorem update_orientation_counterexample :
    (0.6 : ℝ) * 0.6 + (0.8 : ℝ) * 0.8 = 1 ∧
    |(0.8 : ℝ)| > |(0.6 : ℝ)| ∧ (0.8 : ℝ) > 0 ∧
    update_orientation ⟨0.6, 0.8⟩ Direction.left false
      = (Direction.right, false, false) := by
  have habs : |(0.8 : ℝ)| > |(0.6 : ℝ)| := by
    rw [abs_of_pos (show (0 : ℝ) < 0.8 by norm_num),
      abs_of_pos (show (0 : ℝ) < 0.6 by norm_num)]
    norm_num
  refine ⟨by norm_num, habs, by norm_num, ?_⟩
  unfold update_orientation
  rw [if_pos]
  show (0.6 : ℝ) > 0.5
  norm_num

/-- Claim C6 (amended): the direction / on-ceiling update after landing is by
threshold tests in source order, not by the dominant axis: `n.x > 0.5` faces
Right; else `n.x < -0.5` faces Left; else `n.y > 0.5` sets `on_ceiling`; else
`n.y < -0.5` is the floor case leaving direction and `on_ceiling` unchanged;
when no test fires, the "surprise normal" error branch fires with direction
and `on_ceiling` unchanged — and for an exactly unit normal that error branch
is unreachable. -/
theorem update_orientation_thresholds (n : Vec2) (dir : Direction) (c : Bool) :
    (n.x > 0.5 → update_orientation n dir c = (Direction.right, c, false)) ∧
    (¬(n.x > 0.5) → n.x < -0.5 →
      update_orientation n dir c = (Direction.left, c, false)) ∧
    (¬(n.x > 0.5) → ¬(n.x < -0.5) → n.y > 0.5 →
      update_orientation n dir c = (dir, true, false)) ∧
    (¬(n.x > 0.5) → ¬(n.x < -0.5) → ¬(n.y > 0.5) → n.y < -0.5 →
      update_orientation n dir c = (dir, c, false)) ∧
    (¬(n.x > 0.5) → ¬(n.x < -0.5) → ¬(n.y > 0.5) → ¬(n.y < -0.5) →
      update_orientation n dir c = (dir, c, true)) ∧
    (n.x * n.x + n.y * n.y = 1 → (update_orientation n dir c).2.2 = false) := by
  refine ⟨?_, ?_, ?_, ?_, ?_, ?_⟩
  · intro h1
    unfold update_orientation
    rw [if_pos h1]
  · intro h1 h2
    unfold update_orientation
    rw [if_neg h1, if_pos h2]
  · intro h1 h2 h3
    unfold update_orientation
    rw [if_neg h1, if_neg h2, if_pos h3]
  · intro h1 h2 h3 h4
    unfold update_orientation
    rw [if_neg h1, if_neg h2, if_neg h3, if_pos h4]
  · intro h1 h2 h3 h4
    unfold update_orientation
    rw [if_neg h1, if_neg h2, if_neg h3, if_neg h4]
  · intro hunit
    unfold update_orientation
    by_cases h1 : n.x > 0.5
    · rw [if_pos h1]
    · by_cases h2 : n.x < -0.5
      · rw [if_neg h1, if_pos h2]
      · by_cases h3 : n.y > 0.5
        · rw [if_neg h1, if_neg h2, if_pos h3]
        · by_cases h4 : n.y < -0.5
          · rw [if_neg h1, if_neg h2, if_neg h3, if_pos h4]
          · exfalso
            push_neg at h1 h2 h3 h4
            nlinarith

/-- Witness for C6 (amended) at the floor normal `(0, -1)`. -/
theorem update_orientation_thresholds_witness :
    ¬((Vec2.mk 0 (-1)).x > 0.5) ∧ ¬((Vec2.mk 0 (-1)).x < -0.5) ∧
    ¬((Vec2.mk 0 (-1)).y > 0.5) ∧ (Vec2.mk 0 (-1)).y < -0.5 ∧
    update_orientation ⟨0, -1⟩ Direction.left false = (Direction.left, false, false) := by
  have h1 : ¬((Vec2.mk 0 (-1)).x > 0.5) := by norm_num
  have h2 : ¬((Vec2.mk 0 (-1)).x < -0.5) := by norm_num
  have h3 : ¬((Vec2.mk 0 (-1)).y > 0.5) := by norm_num
  have h4 : (Vec2.mk 0 (-1)).y < -0.5 := by norm_num
  exact ⟨h1, h2, h3, h4,
    (update_orientation_thresholds ⟨0, -1⟩ Direction.left false).2.2.2.1 h1 h2 h3 h4⟩

/-! ## Claim C3 -/

/-- Claim C3 (code bug): the collision core can panic.  With the player
falling straight down (motion `(0, 10)`, not approximately zero) onto the
corner at index 0 of a square tile, the prior adjacent edge is vertical, the
motion has zero component along that edge's orthogonal axis, and
`LandingSurface::new` returns `None` — so `pick_adjacent_side`'s
`.expect("surface should have a normal!")` aborts, contradicting the spec's
guarantee that no path panics mid-physics-step. -/
theorem pick_adjacent_side_panics :
    pick_adjacent_side squarePolygon 0 prior_point ⟨0, 10⟩ = none ∧
    ¬ Vec2.is_zero_approx ⟨0, 10⟩ := by
  constructor
  · have hprior : prior_point squarePolygon 0 = 3 := rfl
    unfold pick_adjacent_side
    rw [hprior]
    rw [show getP squarePolygon 0 = ⟨0, 0⟩ from rfl,
      show getP squarePolygon 3 = ⟨0, 10⟩ from rfl]
    unfold LandingSurface.new
    rw [normal_none_eval (⟨0, 0⟩ : Vec2) ⟨0, 10⟩ ⟨0, 10⟩
      (by simp only [Vec2.cross, Vec2.sub_x, Vec2.sub_y]; norm_num)]
  · intro h
    have hy := h.2
    rw [abs_of_pos (show (0 : ℝ) < 10 by norm_num)] at hy
    norm_num at hy

/-! ## Claim C2 -/

/-- Counterexample to C2: with motion `(0, 20)` (not approximately zero) at
corner 0 of the square polygon, the function neither returns `None` nor any
ordered candidate — it panics inside `pick_adjacent_side` because the motion
is parallel to the prior adjacent edge. -/
theorem corner_pick_counterexample :
    ¬ Vec2.is_zero_approx ⟨0, 20⟩ ∧
    pick_side_to_land_on_from_corner 10 inPolyFalse squarePolygon 0 ⟨0, 20⟩ ⟨0, -1⟩
      = PanicOr.crashed := by
  have hnz : ¬ Vec2.is_zero_approx (Vec2.mk 0 20) := by
    intro h
    have hy := h.2
    rw [abs_of_pos (show (0 : ℝ) < 20 by norm_num)] at hy
    norm_num at hy
  refine ⟨hnz, ?_⟩
  unfold pick_side_to_land_on_from_corner
  rw [if_neg hnz]
  have hprior : pick_adjacent_side squarePolygon 0 prior_point ⟨0, 20⟩ = none := by
    unfold pick_adjacent_side
    rw [show prior_point squarePolygon 0 = 3 from rfl]
    rw [show getP squarePolygon 0 = ⟨0, 0⟩ from rfl,
      show getP squarePolygon 3 = ⟨0, 10⟩ from rfl]
    unfold LandingSurface.new
    rw [normal_none_eval (⟨0, 0⟩ : Vec2) ⟨0, 10⟩ ⟨0, 20⟩
      (by simp only [Vec2.cross, Vec2.sub_x, Vec2.sub_y]; norm_num)]
  rw [hprior]

/-- Claim C2 (amended): when both adjacent edges admit a normal against the
motion (otherwise the `expect` in `pick_adjacent_side` panics — see C3),
`pick_side_to_land_on_from_corner` returns `None` for approximately-zero
motion; otherwise it orders the two adjacent surfaces so the one whose normal
has the larger dot product with `collision_normal` is tried first, returns the
first of them that can support the player's width (after `correct_normal`),
and returns `None` when neither can. -/
theorem corner_pick_spec (width : ℝ) (inPoly : InPolyFn) (points : List Vec2)
    (index : ℕ) (motion cnormal : Vec2) (lsa lsb : LandingSurface)
    (ha : pick_adjacent_side points index prior_point motion = some lsa)
    (hb : pick_adjacent_side points index next_point motion = some lsb) :
    (Vec2.is_zero_approx motion →
      pick_side_to_land_on_from_corner width inPoly points index motion cnormal
        = PanicOr.ret none) ∧
    (¬ Vec2.is_zero_approx motion →
      ∃ s1 s2 : LandingSurface,
        ((s1 = lsa ∧ s2 = lsb) ∨ (s1 = lsb ∧ s2 = lsa)) ∧
        Vec2.dot s2.normal cnormal ≤ Vec2.dot s1.normal cnormal ∧
        pick_side_to_land_on_from_corner width inPoly points index motion cnormal
          = (if can_land_on_surface width s1 then
              PanicOr.ret (some (s1.correct_normal inPoly points))
            else if can_land_on_surface width s2 then
              PanicOr.ret (some (s2.correct_normal inPoly points))
            else PanicOr.ret none)) := by
  constructor
  · intro hz
    unfold pick_side_to_land_on_from_corner
    rw [if_pos hz]
  · intro hnz
    unfold pick_side_to_land_on_from_corner
    rw [if_neg hnz, ha, hb]
    by_cases hswap : Vec2.dot lsb.normal cnormal > Vec2.dot lsa.normal cnormal
    · refine ⟨lsb, lsa, Or.inr ⟨rfl, rfl⟩, le_of_lt hswap, ?_⟩
      dsimp only
      rw [if_pos hswap]
    · refine ⟨lsa, lsb, Or.inl ⟨rfl, rfl⟩, not_lt.mp hswap, ?_⟩
      dsimp only
      rw [if_neg hswap]

/-- Witness for C2 (amended): at corner 0 of the square with motion `(5, 10)`
both adjacent surfaces exist; the bottom edge (normal `(0, -1)`) aligns better
with the collision normal `(0, -1)`, can carry width 5, and is returned. -/
theorem corner_pick_spec_witness :
    pick_adjacent_side squarePolygon 0 prior_point ⟨5, 10⟩
      = some ⟨⟨0, 0⟩, ⟨0, 10⟩, ⟨-1, 0⟩⟩ ∧
    pick_adjacent_side squarePolygon 0 next_point ⟨5, 10⟩
      = some ⟨⟨0, 0⟩, ⟨10, 0⟩, ⟨0, -1⟩⟩ ∧
    ¬ Vec2.is_zero_approx ⟨5, 10⟩ ∧
    ∃ s1 s2 : LandingSurface,
      ((s1 = (⟨⟨0, 0⟩, ⟨0, 10⟩, ⟨-1, 0⟩⟩ : LandingSurface)
          ∧ s2 = (⟨⟨0, 0⟩, ⟨10, 0⟩, ⟨0, -1⟩⟩ : LandingSurface)) ∨
       (s1 = (⟨⟨0, 0⟩, ⟨10, 0⟩, ⟨0, -1⟩⟩ : LandingSurface)
          ∧ s2 = (⟨⟨0, 0⟩, ⟨0, 10⟩, ⟨-1, 0⟩⟩ : LandingSurface))) ∧
      Vec2.dot s2.normal ⟨0, -1⟩ ≤ Vec2.dot s1.normal ⟨0, -1⟩ ∧
      pick_side_to_land_on_from_corner 5 inPolyFalse squarePolygon 0 ⟨5, 10⟩ ⟨0, -1⟩
        = (if can_land_on_surface 5 s1 then
            PanicOr.ret (some (s1.correct_normal inPolyFalse squarePolygon))
          else if can_land_on_surface 5 s2 then
            PanicOr.ret (some (s2.correct_normal inPolyFalse squarePolygon))
          else PanicOr.ret none) := by
  have hnz : ¬ Vec2.is_zero_approx (Vec2.mk 5 10) := by
    intro h
    have hx := h.1
    rw [abs_of_pos (show (0 : ℝ) < 5 by norm_num)] at hx
    norm_num at hx
  have ha : pick_adjacent_side squarePolygon 0 prior_point ⟨5, 10⟩
      = some ⟨⟨0, 0⟩, ⟨0, 10⟩, ⟨-1, 0⟩⟩ := by
    unfold pick_adjacent_side
    rw [show prior_point squarePolygon 0 = 3 from rfl]
    rw [show getP squarePolygon 0 = ⟨0, 0⟩ from rfl,
      show getP squarePolygon 3 = ⟨0, 10⟩ from rfl]
    unfold LandingSurface.new
    rw [normal_eval_concrete (⟨0, 0⟩ : Vec2) ⟨0, 10⟩ ⟨5, 10⟩ 5 (-1) 0
      (by norm_num)
      (by simp only [Vec2.cross, Vec2.length_squared, Vec2.sub_x, Vec2.sub_y]; norm_num)
      (by simp only [Vec2.cross, Vec2.length_squared, Vec2.sub_x, Vec2.sub_y]; norm_num)
      (by norm_num)]
  have hb : pick_adjacent_side squarePolygon 0 next_point ⟨5, 10⟩
      = some ⟨⟨0, 0⟩, ⟨10, 0⟩, ⟨0, -1⟩⟩ := by
    unfold pick_adjacent_side
    rw [show next_point squarePolygon 0 = 1 from rfl]
    rw [show getP squarePolygon 0 = ⟨0, 0⟩ from rfl,
      show getP squarePolygon 1 = ⟨10, 0⟩ from rfl]
    unfold LandingSurface.new
    rw [normal_eval_concrete (⟨0, 0⟩ : Vec2) ⟨10, 0⟩ ⟨5, 10⟩ 10 0 (-1)
      (by norm_num)
      (by simp only [Vec2.cross, Vec2.length_squared, Vec2.sub_x, Vec2.sub_y]; norm_num)
      (by simp only [Vec2.cross, Vec2.length_squared, Vec2.sub_x, Vec2.sub_y]; norm_num)
      (by norm_num)]
  exact ⟨ha, hb, hnz,
    (corner_pick_spec 5 inPolyFalse squarePolygon 0 ⟨5, 10⟩ ⟨0, -1⟩ _ _ ha hb).2 hnz⟩

/-! ## Claim C10 -/

/-- Claim C10: if no edge of the polygon satisfies `hit_by` for the collision
position and collision normal (after skipping edges whose normal construction
fails), `pick_side_to_land_on` returns `None`, and the caller's
`map_or_else` fall-back then uses the raw engine-reported collision normal. -/
theorem pick_side_no_hit (ctx : PickCtx)
    (h : ∀ i, i < ctx.points.length → ∀ n,
      Math.normal (getP ctx.points i) (getP ctx.points (next_point ctx.points i))
        ctx.player_motion = some n →
      ¬ LandingSurface.hit_by
        ⟨getP ctx.points i, getP ctx.points (next_point ctx.points i), n⟩
        ctx.collision_position ctx.collision_normal) :
    pick_side_to_land_on ctx = none ∧
    final_normal (pick_side_to_land_on ctx) ctx.collision_normal
      = ctx.collision_normal := by
  have hnone : pick_side_to_land_on ctx = none := by
    unfold pick_side_to_land_on
    exact pick_from_all_none ctx (fun j hj => edge_step_eq_none ctx j (h j hj))
      ctx.points.length 0 (by omega)
  refine ⟨hnone, ?_⟩
  rw [hnone]
  rfl

/-- Witness for C10: a collision at `(100, 100)` misses every edge of the
square (two edges are parallel to the motion, the other two are far from the
collision point), so selection fails and the raw normal is kept. -/
theorem pick_side_no_hit_witness :
    (∀ i, i < c10ctx.points.length → ∀ n,
      Math.normal (getP c10ctx.points i) (getP c10ctx.points (next_point c10ctx.points i))
        c10ctx.player_motion = some n →
      ¬ LandingSurface.hit_by
        ⟨getP c10ctx.points i, getP c10ctx.points (next_point c10ctx.points i), n⟩
        c10ctx.collision_position c10ctx.collision_normal) ∧
    pick_side_to_land_on c10ctx = none ∧
    final_normal (pick_side_to_land_on c10ctx) c10ctx.collision_normal
      = c10ctx.collision_normal := by
  have h : ∀ i, i < c10ctx.points.length → ∀ n,
      Math.normal (getP c10ctx.points i) (getP c10ctx.points (next_point c10ctx.points i))
        c10ctx.player_motion = some n →
      ¬ LandingSurface.hit_by
        ⟨getP c10ctx.points i, getP c10ctx.points (next_point c10ctx.points i), n⟩
        c10ctx.collision_position c10ctx.collision_normal := by
    intro i hi
    have hi4 : i < 4 := by
      simpa [c10ctx, squarePolygon] using hi
    interval_cases i
    · -- bottom edge (0,0)-(10,0): normal (0,-1), but the collision is far away
      intro n hn
      rw [show getP c10ctx.points 0 = ⟨0, 0⟩ from rfl,
        show next_point c10ctx.points 0 = 1 from rfl,
        show getP c10ctx.points 1 = ⟨10, 0⟩ from rfl] at hn ⊢
      rw [show c10ctx.player_motion = ⟨0, 10⟩ from rfl] at hn
      rw [normal_eval_concrete (⟨0, 0⟩ : Vec2) ⟨10, 0⟩ ⟨0, 10⟩ 10 0 (-1)
        (by norm_num)
        (by simp only [Vec2.cross, Vec2.length_squared, Vec2.sub_x, Vec2.sub_y]; norm_num)
        (by simp only [Vec2.cross, Vec2.length_squared, Vec2.sub_x, Vec2.sub_y]; norm_num)
        (by norm_num)] at hn
      rw [Option.some_inj] at hn
      subst hn
      intro hhit
      exact absurd hhit.1 (not_lt.mpr (le_abs.mpr (Or.inr
        (by simp only [c10ctx, Vec2.dot]; norm_num))))
    · -- right edge (10,0)-(10,10): parallel to the motion, normal fails
      intro n hn
      rw [show getP c10ctx.points 1 = ⟨10, 0⟩ from rfl,
        show next_point c10ctx.points 1 = 2 from rfl,
        show getP c10ctx.points 2 = ⟨10, 10⟩ from rfl,
        show c10ctx.player_motion = ⟨0, 10⟩ from rfl] at hn
      rw [normal_none_eval (⟨10, 0⟩ : Vec2) ⟨10, 10⟩ ⟨0, 10⟩
        (by simp only [Vec2.cross, Vec2.sub_x, Vec2.sub_y]; norm_num)] at hn
      exact absurd hn (by simp)
    · -- top edge (10,10)-(0,10): normal (0,-1), collision far away
      intro n hn
      rw [show getP c10ctx.points 2 = ⟨10, 10⟩ from rfl,
        show next_point c10ctx.points 2 = 3 from rfl,
        show getP c10ctx.points 3 = ⟨0, 10⟩ from rfl] at hn ⊢
      rw [show c10ctx.player_motion = ⟨0, 10⟩ from rfl] at hn
      rw [normal_eval_concrete (⟨10, 10⟩ : Vec2) ⟨0, 10⟩ ⟨0, 10⟩ 10 0 (-1)
        (by norm_num)
        (by simp only [Vec2.cross, Vec2.length_squared, Vec2.sub_x, Vec2.sub_y]; norm_num)
        (by simp only [Vec2.cross, Vec2.length_squared, Vec2.sub_x, Vec2.sub_y]; norm_num)
        (by norm_num)] at hn
      rw [Option.some_inj] at hn
      subst hn
      intro hhit
      exact absurd hhit.1 (not_lt.mpr (le_abs.mpr (Or.inr
        (by simp only [c10ctx, Vec2.dot]; norm_num))))
    · -- left edge (0,10)-(0,0): parallel to the motion, normal fails
      intro n hn
      rw [show getP c10ctx.points 3 = ⟨0, 10⟩ from rfl,
        show next_point c10ctx.points 3 = 0 from rfl,
        show getP c10ctx.points 0 = ⟨0, 0⟩ from rfl,
        show c10ctx.player_motion = ⟨0, 10⟩ from rfl] at hn
      rw [normal_none_eval (⟨0, 10⟩ : Vec2) ⟨0, 0⟩ ⟨0, 10⟩
        (by simp only [Vec2.cross, Vec2.sub_x, Vec2.sub_y]; norm_num)] at hn
      exact absurd hn (by simp)
  exact ⟨h, pick_side_no_hit c10ctx h⟩

/-! ## Claim C4 -/

/-- Claim C4: when the first edge matched by `hit_by` is too short to support
the player's width, `pick_side_to_land_on` returns: the adjacent qualifying
surface whose corner endpoint (`a`) is nearer by squared distance to the
player's global position when both adjacent surfaces qualify; the single
qualifying adjacent surface when exactly one does; and the original too-short
surface when neither does. -/
theorem pick_side_too_short (ctx : PickCtx) (i : ℕ) (n : Vec2)
    (hi : i < ctx.points.length)
    (hfirst : ∀ j, j < i → edge_step ctx j = none)
    (hn : Math.normal (getP ctx.points i) (getP ctx.points (next_point ctx.points i))
      ctx.player_motion = some n)
    (hhit : LandingSurface.hit_by
      ⟨getP ctx.points i, getP ctx.points (next_point ctx.points i), n⟩
      ctx.collision_position ctx.collision_normal)
    (hshort : ¬ can_land_on_surface ctx.width
      ⟨getP ctx.points i, getP ctx.points (next_point ctx.points i), n⟩) :
    (∀ ns ps : LandingSurface,
      Option.filter (fun s => decide (can_land_on_surface ctx.width s))
        (LandingSurface.find_surface ctx.inPoly ctx.points (next_point ctx.points i)
          (next_point ctx.points (next_point ctx.points i))) = some ns →
      Option.filter (fun s => decide (can_land_on_surface ctx.width s))
        (LandingSurface.find_surface ctx.inPoly ctx.points i (prior_point ctx.points i))
          = some ps →
      pick_side_to_land_on ctx
        = some (if Vec2.distance_squared_to ctx.global_position ns.a
            < Vec2.distance_squared_to ctx.global_position ps.a then ns else ps)) ∧
    (∀ ns : LandingSurface,
      Option.filter (fun s => decide (can_land_on_surface ctx.width s))
        (LandingSurface.find_surface ctx.inPoly ctx.points (next_point ctx.points i)
          (next_point ctx.points (next_point ctx.points i))) = some ns →
      Option.filter (fun s => decide (can_land_on_surface ctx.width s))
        (LandingSurface.find_surface ctx.inPoly ctx.points i (prior_point ctx.points i))
          = none →
      pick_side_to_land_on ctx = some ns) ∧
    (∀ ps : LandingSurface,
      Option.filter (fun s => decide (can_land_on_surface ctx.width s))
        (LandingSurface.find_surface ctx.inPoly ctx.points (next_point ctx.points i)
          (next_point ctx.points (next_point ctx.points i))) = none →
      Option.filter (fun s => decide (can_land_on_surface ctx.width s))
        (LandingSurface.find_surface ctx.inPoly ctx.points i (prior_point ctx.points i))
          = some ps →
      pick_side_to_land_on ctx = some ps) ∧
    (Option.filter (fun s => decide (can_land_on_surface ctx.width s))
        (LandingSurface.find_surface ctx.inPoly ctx.points (next_point ctx.points i)
          (next_point ctx.points (next_point ctx.points i))) = none →
      Option.filter (fun s => decide (can_land_on_surface ctx.width s))
        (LandingSurface.find_surface ctx.inPoly ctx.points i (prior_point ctx.points i))
          = none →
      pick_side_to_land_on ctx
        = some ⟨getP ctx.points i, getP ctx.points (next_point ctx.points i), n⟩) := by
  have hpick : ∀ s : LandingSurface, edge_step ctx i = some s →
      pick_side_to_land_on ctx = some s := by
    intro s hs
    unfold pick_side_to_land_on
    exact pick_from_reaches ctx i s hs ctx.points.length 0 (Nat.zero_le i) (by omega) hfirst
  have hstep0 : edge_step ctx i = some (
      match Option.filter (fun s => decide (can_land_on_surface ctx.width s))
              (LandingSurface.find_surface ctx.inPoly ctx.points (next_point ctx.points i)
                (next_point ctx.points (next_point ctx.points i))),
            Option.filter (fun s => decide (can_land_on_surface ctx.width s))
              (LandingSurface.find_surface ctx.inPoly ctx.points i
                (prior_point ctx.points i)) with
      | none, none => ⟨getP ctx.points i, getP ctx.points (next_point ctx.points i), n⟩
      | none, some prior_surface => prior_surface
      | some next_surface, none => next_surface
      | some next_surface, some prior_surface =>
          if Vec2.distance_squared_to ctx.global_position next_surface.a
              < Vec2.distance_squared_to ctx.global_position prior_surface.a
          then next_surface else prior_surface) := by
    unfold edge_step
    rw [hn]
    dsimp only
    rw [if_pos hhit, if_neg hshort]
  refine ⟨?_, ?_, ?_, ?_⟩
  · intro ns ps hns hps
    apply hpick
    rw [hstep0, hns, hps]
  · intro ns hns hps
    apply hpick
    rw [hstep0, hns, hps]
  · intro ps hns hps
    apply hpick
    rw [hstep0, hns, hps]
  · intro hns hps
    apply hpick
    rw [hstep0, hns, hps]

/-- Witness for C4: on `shortEdgePolygon` the hit edge `(0,0)-(5,0)` cannot
carry width 10; both flanking surfaces qualify, and the next-side corner
`(5,0)` is nearer to the player at `(5,-3)` than the prior-side corner
`(0,0)`, so the next surface is returned. -/
theorem pick_side_too_short_witness :
    ¬ can_land_on_surface c4ctx.width ⟨⟨0, 0⟩, ⟨5, 0⟩, ⟨0, -1⟩⟩ ∧
    LandingSurface.hit_by ⟨⟨0, 0⟩, ⟨5, 0⟩, ⟨0, -1⟩⟩
      c4ctx.collision_position c4ctx.collision_normal ∧
    pick_side_to_land_on c4ctx = some ⟨⟨5, 0⟩, ⟨15, 0⟩, ⟨0, 1⟩⟩ := by
  have hn : Math.normal (getP c4ctx.points 0)
      (getP c4ctx.points (next_point c4ctx.points 0)) c4ctx.player_motion
      = some ⟨0, -1⟩ := by
    rw [show getP c4ctx.points 0 = ⟨0, 0⟩ from rfl,
      show next_point c4ctx.points 0 = 1 from rfl,
      show getP c4ctx.points 1 = ⟨5, 0⟩ from rfl]
    exact normal_eval_concrete (⟨0, 0⟩ : Vec2) ⟨5, 0⟩ ⟨0, 10⟩ 10 0 (-1)
      (by norm_num)
      (by simp only [Vec2.cross, Vec2.length_squared, Vec2.sub_x, Vec2.sub_y]; norm_num)
      (by simp only [Vec2.cross, Vec2.length_squared, Vec2.sub_x, Vec2.sub_y]; norm_num)
      (by norm_num)
  have hshort : ¬ can_land_on_surface c4ctx.width ⟨⟨0, 0⟩, ⟨5, 0⟩, ⟨0, -1⟩⟩ := by
    intro hc
    unfold can_land_on_surface LandingSurface.length_squared Math.squared
      WIDTH_MODIFIER at hc
    simp only [Vec2.length_squared, Vec2.sub_x, Vec2.sub_y] at hc
    norm_num [c4ctx] at hc
  have hhit : LandingSurface.hit_by ⟨⟨0, 0⟩, ⟨5, 0⟩, ⟨0, -1⟩⟩
      c4ctx.collision_position c4ctx.collision_normal := by
    unfold LandingSurface.hit_by
    refine ⟨?_, ?_, ?_⟩
    · show |Vec2.dot ⟨0, -1⟩ ⟨2.5, 0⟩ - Vec2.dot ⟨0, -1⟩ ⟨0, 0⟩| < 0.2
      simp only [Vec2.dot]
      norm_num
    · show 1 - Vec2.dot ⟨0, -1⟩ ⟨0, -1⟩ < 0.2
      simp only [Vec2.dot]
      norm_num
    · show |Vec2.length ((⟨0, 0⟩ : Vec2) - ⟨5, 0⟩)
        - (Vec2.length ((⟨0, 0⟩ : Vec2) - ⟨2.5, 0⟩)
          + Vec2.length ((⟨5, 0⟩ : Vec2) - ⟨2.5, 0⟩))| < 0.2
      rw [length_eval_clean ((⟨0, 0⟩ : Vec2) - ⟨5, 0⟩) 5 (by norm_num)
          (by simp only [Vec2.sub_x, Vec2.sub_y]; norm_num),
        length_eval_clean ((⟨0, 0⟩ : Vec2) - ⟨2.5, 0⟩) 2.5 (by norm_num)
          (by simp only [Vec2.sub_x, Vec2.sub_y]; norm_num),
        length_eval_clean ((⟨5, 0⟩ : Vec2) - ⟨2.5, 0⟩) 2.5 (by norm_num)
          (by simp only [Vec2.sub_x, Vec2.sub_y]; norm_num)]
      norm_num
  have hns : Option.filter (fun s => decide (can_land_on_surface c4ctx.width s))
      (LandingSurface.find_surface c4ctx.inPoly c4ctx.points
        (next_point c4ctx.points 0) (next_point c4ctx.points (next_point c4ctx.points 0)))
      = some ⟨⟨5, 0⟩, ⟨15, 0⟩, ⟨0, 1⟩⟩ := by
    have hfs : LandingSurface.find_surface inPolyFalse shortEdgePolygon 1 2
        = some ⟨⟨5, 0⟩, ⟨15, 0⟩, ⟨0, 1⟩⟩ := by
      rw [find_surface_eval inPolyFalse shortEdgePolygon 1 2 ⟨5, 0⟩ ⟨15, 0⟩ ⟨0, 1⟩ rfl rfl
        (try_normalized_eval_clean _ 10 0 1 (by norm_num)
          (by simp only [Vec2.orthogonal_x, Vec2.sub_y]; norm_num)
          (by simp only [Vec2.orthogonal_y, Vec2.sub_x]; norm_num)
          (by norm_num)),
        correct_normal_inPolyFalse]
    show Option.filter (fun s => decide (can_land_on_surface c4ctx.width s))
      (LandingSurface.find_surface inPolyFalse shortEdgePolygon 1 2)
      = some ⟨⟨5, 0⟩, ⟨15, 0⟩, ⟨0, 1⟩⟩
    rw [hfs]
    apply option_filter_some_of
    rw [decide_eq_true_eq]
    unfold can_land_on_surface LandingSurface.length_squared Math.squared WIDTH_MODIFIER
    simp only [Vec2.length_squared, Vec2.sub_x, Vec2.sub_y]
    norm_num [c4ctx]
  have hps : Option.filter (fun s => decide (can_land_on_surface c4ctx.width s))
      (LandingSurface.find_surface c4ctx.inPoly c4ctx.points 0
        (prior_point c4ctx.points 0))
      = some ⟨⟨0, 0⟩, ⟨-10, 0⟩, ⟨0, -1⟩⟩ := by
    have hfs : LandingSurface.find_surface inPolyFalse shortEdgePolygon 0 5
        = some ⟨⟨0, 0⟩, ⟨-10, 0⟩, ⟨0, -1⟩⟩ := by
      rw [find_surface_eval inPolyFalse shortEdgePolygon 0 5 ⟨0, 0⟩ ⟨-10, 0⟩ ⟨0, -1⟩ rfl rfl
        (try_normalized_eval_clean _ 10 0 (-1) (by norm_num)
          (by simp only [Vec2.orthogonal_x, Vec2.sub_y]; norm_num)
          (by simp only [Vec2.orthogonal_y, Vec2.sub_x]; norm_num)
          (by norm_num)),
        correct_normal_inPolyFalse]
    show Option.filter (fun s => decide (can_land_on_surface c4ctx.width s))
      (LandingSurface.find_surface inPolyFalse shortEdgePolygon 0 5)
      = some ⟨⟨0, 0⟩, ⟨-10, 0⟩, ⟨0, -1⟩⟩
    rw [hfs]
    apply option_filter_some_of
    rw [decide_eq_true_eq]
    unfold can_land_on_surface LandingSurface.length_squared Math.squared WIDTH_MODIFIER
    simp only [Vec2.length_squared, Vec2.sub_x, Vec2.sub_y]
    norm_num [c4ctx]
  have hi : (0 : ℕ) < c4ctx.points.length := by
    simp [c4ctx, shortEdgePolygon]
  have hfirst : ∀ j, j < 0 → edge_step c4ctx j = none :=
    fun j hj => absurd hj (Nat.not_lt_zero j)
  have hmain := (pick_side_too_short c4ctx 0 ⟨0, -1⟩ hi hfirst hn hhit hshort).1
    ⟨⟨5, 0⟩, ⟨15, 0⟩, ⟨0, 1⟩⟩ ⟨⟨0, 0⟩, ⟨-10, 0⟩, ⟨0, -1⟩⟩ hns hps
  refine ⟨hshort, hhit, ?_⟩
  rw [hmain, if_pos]
  unfold Vec2.distance_squared_to
  simp only [Vec2.length_squared, Vec2.sub_x, Vec2.sub_y]
  norm_num [c4ctx]

/-! ## Claim C8: evaluation of `smooth_polygon` on the example polygons -/

theorem dup_stack_square : dup_stack squarePolygon = [] := by
  have e0 := dup_cond_false squarePolygon 0 ⟨0, 0⟩ ⟨10, 0⟩ rfl rfl (by norm_num)
  have e1 := dup_cond_false squarePolygon 1 ⟨10, 0⟩ ⟨10, 10⟩ rfl rfl (by norm_num)
  have e2 := dup_cond_false squarePolygon 2 ⟨10, 10⟩ ⟨0, 10⟩ rfl rfl (by norm_num)
  have e3 := dup_cond_false squarePolygon 3 ⟨0, 10⟩ ⟨0, 0⟩ rfl rfl (by norm_num)
  unfold dup_stack
  rw [show List.range squarePolygon.length = [0, 1, 2, 3] from by rfl]
  simp [e0, e1, e2, e3]

theorem normal_stack_square : normal_stack inPolyFalse squarePolygon = [] := by
  have f0 : LandingSurface.find_surface inPolyFalse squarePolygon 0 1
      = some ⟨⟨0, 0⟩, ⟨10, 0⟩, ⟨0, 1⟩⟩ := by
    rw [find_surface_eval inPolyFalse squarePolygon 0 1 ⟨0, 0⟩ ⟨10, 0⟩ ⟨0, 1⟩ rfl rfl
      (try_normalized_eval_clean _ 10 0 1 (by norm_num)
        (by simp only [Vec2.orthogonal_x, Vec2.sub_y]; norm_num)
        (by simp only [Vec2.orthogonal_y, Vec2.sub_x]; norm_num)
        (by norm_num)), correct_normal_inPolyFalse]
  have f1 : LandingSurface.find_surface inPolyFalse squarePolygon 1 2
      = some ⟨⟨10, 0⟩, ⟨10, 10⟩, ⟨-1, 0⟩⟩ := by
    rw [find_surface_eval inPolyFalse squarePolygon 1 2 ⟨10, 0⟩ ⟨10, 10⟩ ⟨-1, 0⟩ rfl rfl
      (try_normalized_eval_clean _ 10 (-1) 0 (by norm_num)
        (by simp only [Vec2.orthogonal_x, Vec2.sub_y]; norm_num)
        (by simp only [Vec2.orthogonal_y, Vec2.sub_x]; norm_num)
        (by norm_num)), correct_normal_inPolyFalse]
  have f2 : LandingSurface.find_surface inPolyFalse squarePolygon 2 3
      = some ⟨⟨10, 10⟩, ⟨0, 10⟩, ⟨0, -1⟩⟩ := by
    rw [find_surface_eval inPolyFalse squarePolygon 2 3 ⟨10, 10⟩ ⟨0, 10⟩ ⟨0, -1⟩ rfl rfl
      (try_normalized_eval_clean _ 10 0 (-1) (by norm_num)
        (by simp only [Vec2.orthogonal_x, Vec2.sub_y]; norm_num)
        (by simp only [Vec2.orthogonal_y, Vec2.sub_x]; norm_num)
        (by norm_num)), correct_normal_inPolyFalse]
  have f3 : LandingSurface.find_surface inPolyFalse squarePolygon 3 0
      = some ⟨⟨0, 10⟩, ⟨0, 0⟩, ⟨1, 0⟩⟩ := by
    rw [find_surface_eval inPolyFalse squarePolygon 3 0 ⟨0, 10⟩ ⟨0, 0⟩ ⟨1, 0⟩ rfl rfl
      (try_normalized_eval_clean _ 10 1 0 (by norm_num)
        (by simp only [Vec2.orthogonal_x, Vec2.sub_y]; norm_num)
        (by simp only [Vec2.orthogonal_y, Vec2.sub_x]; norm_num)
        (by norm_num)), correct_normal_inPolyFalse]
  have m0 := same_normals_cond_false inPolyFalse squarePolygon 0 _ _ f0 f1
    (not_same_normals_of_perp _ _ (by norm_num [Vec2.dot]) (by norm_num [Vec2.cross]))
  have m1 := same_normals_cond_false inPolyFalse squarePolygon 1 _ _ f1 f2
    (not_same_normals_of_perp _ _ (by norm_num [Vec2.dot]) (by norm_num [Vec2.cross]))
  have m2 := same_normals_cond_false inPolyFalse squarePolygon 2 _ _ f2 f3
    (not_same_normals_of_perp _ _ (by norm_num [Vec2.dot]) (by norm_num [Vec2.cross]))
  have m3 := same_normals_cond_false inPolyFalse squarePolygon 3 _ _ f3 f0
    (not_same_normals_of_perp _ _ (by norm_num [Vec2.dot]) (by norm_num [Vec2.cross]))
  unfold normal_stack
  rw [show List.range squarePolygon.length = [0, 1, 2, 3] from by rfl]
  simp [m0, m1, m2, m3]

theorem smooth_square : smooth_polygon inPolyFalse squarePolygon = squarePolygon := by
  unfold smooth_polygon
  rw [dup_stack_square, remove_points_nil, normal_stack_square, remove_points_nil]

theorem dup_stack_notched : dup_stack notchedPolygon = [2] := by
  have e0 := dup_cond_false notchedPolygon 0 ⟨-5, 0⟩ ⟨0, 0⟩ rfl rfl (by norm_num)
  have e1 := dup_cond_true notchedPolygon 1 ⟨0, 0⟩ ⟨0.9, 0⟩ rfl rfl (by norm_num)
  have e2 := dup_cond_false notchedPolygon 2 ⟨0.9, 0⟩ ⟨0, 0.9⟩ rfl rfl (by norm_num)
  have e3 := dup_cond_false notchedPolygon 3 ⟨0, 0.9⟩ ⟨5, 0.9⟩ rfl rfl (by norm_num)
  have e4 := dup_cond_false notchedPolygon 4 ⟨5, 0.9⟩ ⟨5, 5.9⟩ rfl rfl (by norm_num)
  have e5 := dup_cond_false notchedPolygon 5 ⟨5, 5.9⟩ ⟨-5, 5.9⟩ rfl rfl (by norm_num)
  have e6 := dup_cond_false notchedPolygon 6 ⟨-5, 5.9⟩ ⟨-5, 0⟩ rfl rfl (by norm_num)
  unfold dup_stack
  rw [show List.range notchedPolygon.length = [0, 1, 2, 3, 4, 5, 6] from by rfl]
  simp only [List.filter_cons, List.filter_nil, e0, e1, e2, e3, e4, e5, e6]
  norm_num
  rfl

theorem dup_stack_stair : dup_stack stairPolygon = [2] := by
  have e0 := dup_cond_false stairPolygon 0 ⟨-5, 0⟩ ⟨0, 0⟩ rfl rfl (by norm_num)
  have e1 := dup_cond_true stairPolygon 1 ⟨0, 0⟩ ⟨0, 0.9⟩ rfl rfl (by norm_num)
  have e2 := dup_cond_false stairPolygon 2 ⟨0, 0.9⟩ ⟨5, 0.9⟩ rfl rfl (by norm_num)
  have e3 := dup_cond_false stairPolygon 3 ⟨5, 0.9⟩ ⟨5, 5.9⟩ rfl rfl (by norm_num)
  have e4 := dup_cond_false stairPolygon 4 ⟨5, 5.9⟩ ⟨-5, 5.9⟩ rfl rfl (by norm_num)
  have e5 := dup_cond_false stairPolygon 5 ⟨-5, 5.9⟩ ⟨-5, 0⟩ rfl rfl (by norm_num)
  unfold dup_stack
  rw [show List.range stairPolygon.length = [0, 1, 2, 3, 4, 5] from by rfl]
  simp only [List.filter_cons, List.filter_nil, e0, e1, e2, e3, e4, e5]
  norm_num
  rfl

theorem normal_stack_stair : normal_stack inPolyFalse stairPolygon = [] := by
  have f0 : LandingSurface.find_surface inPolyFalse stairPolygon 0 1
      = some ⟨⟨-5, 0⟩, ⟨0, 0⟩, ⟨0, 1⟩⟩ := by
    rw [find_surface_eval inPolyFalse stairPolygon 0 1 ⟨-5, 0⟩ ⟨0, 0⟩ ⟨0, 1⟩ rfl rfl
      (try_normalized_eval_clean _ 5 0 1 (by norm_num)
        (by simp only [Vec2.orthogonal_x, Vec2.sub_y]; norm_num)
        (by simp only [Vec2.orthogonal_y, Vec2.sub_x]; norm_num)
        (by norm_num)), correct_normal_inPolyFalse]
  have f1 : LandingSurface.find_surface inPolyFalse stairPolygon 1 2
      = some ⟨⟨0, 0⟩, ⟨0, 0.9⟩, ⟨-1, 0⟩⟩ := by
    rw [find_surface_eval inPolyFalse stairPolygon 1 2 ⟨0, 0⟩ ⟨0, 0.9⟩ ⟨-1, 0⟩ rfl rfl
      (try_normalized_eval_clean _ 0.9 (-1) 0 (by norm_num)
        (by simp only [Vec2.orthogonal_x, Vec2.sub_y]; norm_num)
        (by simp only [Vec2.orthogonal_y, Vec2.sub_x]; norm_num)
        (by norm_num)), correct_normal_inPolyFalse]
  have f2 : LandingSurface.find_surface inPolyFalse stairPolygon 2 3
      = some ⟨⟨0, 0.9⟩, ⟨5, 0.9⟩, ⟨0, 1⟩⟩ := by
    rw [find_surface_eval inPolyFalse stairPolygon 2 3 ⟨0, 0.9⟩ ⟨5, 0.9⟩ ⟨0, 1⟩ rfl rfl
      (try_normalized_eval_clean _ 5 0 1 (by norm_num)
        (by simp only [Vec2.orthogonal_x, Vec2.sub_y]; norm_num)
        (by simp only [Vec2.orthogonal_y, Vec2.sub_x]; norm_num)
        (by norm_num)), correct_normal_inPolyFalse]
  have f3 : LandingSurface.find_surface inPolyFalse stairPolygon 3 4
      = some ⟨⟨5, 0.9⟩, ⟨5, 5.9⟩, ⟨-1, 0⟩⟩ := by
    rw [find_surface_eval inPolyFalse stairPolygon 3 4 ⟨5, 0.9⟩ ⟨5, 5.9⟩ ⟨-1, 0⟩ rfl rfl
      (try_normalized_eval_clean _ 5 (-1) 0 (by norm_num)
        (by simp only [Vec2.orthogonal_x, Vec2.sub_y]; norm_num)
        (by simp only [Vec2.orthogonal_y, Vec2.sub_x]; norm_num)
        (by norm_num)), correct_normal_inPolyFalse]
  have f4 : LandingSurface.find_surface inPolyFalse stairPolygon 4 5
      = some ⟨⟨5, 5.9⟩, ⟨-5, 5.9⟩, ⟨0, -1⟩⟩ := by
    rw [find_surface_eval inPolyFalse stairPolygon 4 5 ⟨5, 5.9⟩ ⟨-5, 5.9⟩ ⟨0, -1⟩ rfl rfl
      (try_normalized_eval_clean _ 10 0 (-1) (by norm_num)
        (by simp only [Vec2.orthogonal_x, Vec2.sub_y]; norm_num)
        (by simp only [Vec2.orthogonal_y, Vec2.sub_x]; norm_num)
        (by norm_num)), correct_normal_inPolyFalse]
  have f5 : LandingSurface.find_surface inPolyFalse stairPolygon 5 0
      = some ⟨⟨-5, 5.9⟩, ⟨-5, 0⟩, ⟨1, 0⟩⟩ := by
    rw [find_surface_eval inPolyFalse stairPolygon 5 0 ⟨-5, 5.9⟩ ⟨-5, 0⟩ ⟨1, 0⟩ rfl rfl
      (try_normalized_eval_clean _ 5.9 1 0 (by norm_num)
        (by simp only [Vec2.orthogonal_x, Vec2.sub_y]; norm_num)
        (by simp only [Vec2.orthogonal_y, Vec2.sub_x]; norm_num)
        (by norm_num)), correct_normal_inPolyFalse]
  have m0 := same_normals_cond_false inPolyFalse stairPolygon 0 _ _ f0 f1
    (not_same_normals_of_perp _ _ (by norm_num [Vec2.dot]) (by norm_num [Vec2.cross]))
  have m1 := same_normals_cond_false inPolyFalse stairPolygon 1 _ _ f1 f2
    (not_same_normals_of_perp _ _ (by norm_num [Vec2.dot]) (by norm_num [Vec2.cross]))
  have m2 := same_normals_cond_false inPolyFalse stairPolygon 2 _ _ f2 f3
    (not_same_normals_of_perp _ _ (by norm_num [Vec2.dot]) (by norm_num [Vec2.cross]))
  have m3 := same_normals_cond_false inPolyFalse stairPolygon 3 _ _ f3 f4
    (not_same_normals_of_perp _ _ (by norm_num [Vec2.dot]) (by norm_num [Vec2.cross]))
  have m4 := same_normals_cond_false inPolyFalse stairPolygon 4 _ _ f4 f5
    (not_same_normals_of_perp _ _ (by norm_num [Vec2.dot]) (by norm_num [Vec2.cross]))
  have m5 := same_normals_cond_false inPolyFalse stairPolygon 5 _ _ f5 f0
    (not_same_normals_of_perp _ _ (by norm_num [Vec2.dot]) (by norm_num [Vec2.cross]))
  unfold normal_stack
  rw [show List.range stairPolygon.length = [0, 1, 2, 3, 4, 5] from by rfl]
  simp [m0, m1, m2, m3, m4, m5]

/-! ## Claim C8 -/

/-- Counterexample to C8: `smooth_polygon` is not idempotent.  On
`notchedPolygon` the first pass removes point 2, which brings points `(0,0)`
and `(0,0.9)` — 0.9 apart — into adjacency; the first application returns the
six-point `stairPolygon`, and a second application removes at least one
further point.  (The engine polygon test is irrelevant here: all adjacent
edges of the intermediate polygons are perpendicular.) -/
theorem smooth_polygon_not_idempotent :
    smooth_polygon inPolyFalse (smooth_polygon inPolyFalse notchedPolygon)
      ≠ smooth_polygon inPolyFalse notchedPolygon := by
  have hsm : smooth_polygon inPolyFalse notchedPolygon = stairPolygon := by
    unfold smooth_polygon
    rw [dup_stack_notched, show remove_points notchedPolygon [2] = stairPolygon from rfl,
      normal_stack_stair, remove_points_nil]
  have hlen : (smooth_polygon inPolyFalse stairPolygon).length ≤ 5 := by
    unfold smooth_polygon
    rw [dup_stack_stair, show remove_points stairPolygon [2]
      = [⟨-5, 0⟩, ⟨0, 0⟩, ⟨5, 0.9⟩, ⟨5, 5.9⟩, ⟨-5, 5.9⟩] from rfl]
    exact le_trans (remove_points_length_le _ _) (by simp)
  rw [hsm]
  intro heq
  rw [heq] at hlen
  norm_num [stairPolygon] at hlen

/-- Claim C8 (amended): `smooth_polygon` is idempotent exactly on inputs whose
smoothed result triggers no further removals: if the output of the first
application has no adjacent pair closer than distance 1 and no adjacent edges
with approximately equal normals, a second application returns it unchanged.
In general idempotence fails: a first-pass removal can create a new
sub-unit adjacency (see the counterexample). -/
theorem smooth_polygon_conditionally_idempotent (inPoly : InPolyFn) (polygon : List Vec2)
    (h1 : dup_stack (smooth_polygon inPoly polygon) = [])
    (h2 : normal_stack inPoly (smooth_polygon inPoly polygon) = []) :
    smooth_polygon inPoly (smooth_polygon inPoly polygon)
      = smooth_polygon inPoly polygon := by
  set Q := smooth_polygon inPoly polygon with hQ
  unfold smooth_polygon
  rw [h1, remove_points_nil, h2, remove_points_nil]

/-- Witness for C8 (amended) on the plain square, which smooths to itself. -/
theorem smooth_polygon_conditionally_idempotent_witness :
    dup_stack (smooth_polygon inPolyFalse squarePolygon) = [] ∧
    normal_stack inPolyFalse (smooth_polygon inPolyFalse squarePolygon) = [] ∧
    smooth_polygon inPolyFalse (smooth_polygon inPolyFalse squarePolygon)
      = smooth_polygon inPolyFalse squarePolygon := by
  have h1 : dup_stack (smooth_polygon inPolyFalse squarePolygon) = [] := by
    rw [smooth_square]
    exact dup_stack_square
  have h2 : normal_stack inPolyFalse (smooth_polygon inPolyFalse squarePolygon) = [] := by
    rw [smooth_square]
    exact normal_stack_square
  exact ⟨h1, h2, smooth_polygon_conditionally_idempotent inPolyFalse squarePolygon h1 h2⟩

end FrogJump
